import Mathlib

/-!
Verification of the v3kn back-end service against its design specification.

The C++ sources are shallowly embedded: each HTTP handler is modelled as a
pure Lean function from its (post-authentication) inputs and the relevant
persistent or in-memory state to a plain-text response plus the updated
state.  Machine integers are modelled as Nat or Int, with an explicit
reduction modulo 2 to the 64 where the C++ code performs uint64 arithmetic.
Entry objects that carry an npid plus a timestamp and whose timestamp never
influences control flow are modelled by the npid alone.
-/

/-! ### Trophy level computation (friend.cpp, calculate_trophy_level) -/

/-- One row of the static level table in calculate_trophy_level. -/
structure LevelRange where
  start_level : Int
  end_level : Int
  points_per_level : Int
  start_points : Int
deriving DecidableEq, Repr

/-- The ten-row static array of level ranges from friend.cpp. -/
def trophy_ranges : List LevelRange :=
  [⟨1, 99, 60, 0⟩,
   ⟨100, 199, 90, 5940⟩,
   ⟨200, 299, 450, 14940⟩,
   ⟨300, 399, 900, 59940⟩,
   ⟨400, 499, 1350, 149940⟩,
   ⟨500, 599, 1800, 284940⟩,
   ⟨600, 699, 2250, 464940⟩,
   ⟨700, 799, 2700, 689940⟩,
   ⟨800, 899, 3150, 959940⟩,
   ⟨900, 999, 3600, 1274940⟩]

/-- The scan over the range table inside calculate_trophy_level: the first
range whose upper bound exceeds the (already clamped) points yields the
level and progress; C++ integer division and modulus truncate toward zero,
hence tdiv and tmod. -/
def findLevelRange : List LevelRange → Int → Option (Int × Int)
  | [], _ => none
  | r :: rest, p =>
    if p < r.start_points + (r.end_level - r.start_level + 1) * r.points_per_level then
      some (r.start_level + (p - r.start_points).tdiv r.points_per_level,
            ((p - r.start_points).tmod r.points_per_level * 100).tdiv r.points_per_level)
    else findLevelRange rest p

/-- calculate_trophy_level from friend.cpp: clamp negative points to 0, scan
the table, and fall through to level 999 progress 100. -/
def calculate_trophy_level (points : Int) : Int × Int :=
  let p := if points < 0 then 0 else points
  (findLevelRange trophy_ranges p).getD (999, 100)

/-- The points accumulation in load_trophies_summary:
points = bronze*15 + silver*30 + gold*90 + platinum*300. -/
def trophy_points (bronze silver gold platinum : Int) : Int :=
  bronze * 15 + silver * 30 + gold * 90 + platinum * 300

/-! ### Storage upload and quota (storage.cpp, handle_upload_file) -/

/-- DEFAULT_QUOTA_TOTAL = 50 * 1024 * 1024 from utils.h. -/
def DEFAULT_QUOTA_TOTAL : Nat := 50 * 1024 * 1024

/-- 2 to the 64, the modulus of C++ uint64_t arithmetic. -/
def UINT64_MOD : Int := 18446744073709551616

/-- std::string starts_with, modelled over the character list. -/
def starts_with (s p : String) : Bool := s.data.take p.data.length == p.data

/-- The per-user storage state touched by handle_upload_file: the persisted
quota_used field and the size of the stored file for the requested
(type, id), none when the file does not exist on disk. -/
structure StorageState where
  quota_used : Nat
  stored : Option Nat
deriving DecidableEq, Repr

/-- handle_upload_file from storage.cpp, after authentication; the multipart
file is modelled by its presence flag and its byte size.  oldSize is the
existing file size (0 when absent), delta the signed difference, and
new_used the uint64 sum used + delta (wrapping modulo 2 to the 64). -/
def handle_upload_file (ftype id : String) (hasFile : Bool) (newSize : Nat)
    (st : StorageState) : String × StorageState :=
  if ¬ (ftype = "savedata" ∨ ftype = "trophy") then ("ERR:InvalidType", st)
  else
    let invalid_id :=
      if ftype = "savedata" then ¬ starts_with id "PCS" ∨ id.length ≠ 9
      else ¬ starts_with id "NPWR" ∨ id.length ≠ 12
    if invalid_id then ("ERR:InvalidID", st)
    else if ¬ hasFile then ("ERR:MissingFile", st)
    else
      let oldSize : Nat := st.stored.getD 0
      let delta : Int := (newSize : Int) - (oldSize : Int)
      let new_used : Nat := (((st.quota_used : Int) + delta) % UINT64_MOD).toNat
      if delta > 0 ∧ new_used > DEFAULT_QUOTA_TOTAL then ("ERR:QuotaExceeded", st)
      else ("OK:" ++ toString new_used ++ ":" ++ toString DEFAULT_QUOTA_TOTAL,
            { quota_used := new_used, stored := some newSize })

/-! ### Friend relation engine and event bus (friend.cpp) -/

/-- An entry of a friend event inbox: the json object built by
push_friend_event and push_friend_status_event.  The status field is only
meaningful for status_changed events; evAt models the at field. -/
structure FEvent where
  type : String
  npid : String
  status : String
  evAt : Int
deriving DecidableEq, Repr

/-- A per-user friends.json file.  Every stored object carries an npid plus
a timestamp (since, sent_at, received_at, blocked_at) that never influences
control flow, so entries are modelled by their npid alone. -/
structure FriendFile where
  friends : List String
  sent : List String
  received : List String
  blocked : List String
deriving DecidableEq, Repr

/-- The friends.json contents materialised by load_friends for a user whose
file does not exist yet. -/
def emptyFriendFile : FriendFile := ⟨[], [], [], []⟩

/-- has_friend from friend.cpp: membership test by npid. -/
def has_friend (l : List String) (npid : String) : Bool := l.contains npid

/-- remove_friend from friend.cpp: remove the first entry with this npid. -/
def remove_friend (l : List String) (npid : String) : List String := l.erase npid

/-- The state touched by the friend relation handlers: per-user friend
files and per-user event inboxes. -/
structure FriendState where
  files : String → FriendFile
  inbox : String → List FEvent

/-- push_friend_event from friend.cpp: append an event (no status field) to
the inbox of npid. -/
def push_friend_event (s : FriendState) (npid ty target_npid : String) (now : Int) :
    FriendState :=
  let newInbox :=
    Function.update s.inbox npid (s.inbox npid ++ [FEvent.mk ty target_npid "" now])
  { s with inbox := newInbox }

/-- handle_friend_add from friend.cpp, after authentication; users is the
key list of the persisted user table.  Returns the response, the new state
and the list of npids whose poll signal was notified. -/
def handle_friend_add (users : List String) (now : Int) (npid target_npid : String)
    (s : FriendState) : String × FriendState × List String :=
  if target_npid = "" then ("ERR:MissingTargetNPID", s, [])
  else if npid = target_npid then ("ERR:CannotAddYourself", s, [])
  else if ¬ users.contains target_npid then ("ERR:UserNotFound", s, [])
  else
    let user_friends := s.files npid
    let target_friends := s.files target_npid
    let is_blocked_by_target := has_friend target_friends.blocked npid
    if has_friend user_friends.friends target_npid then ("ERR:AlreadyFriends", s, [])
    else if has_friend user_friends.sent target_npid then ("ERR:RequestAlreadySent", s, [])
    else if is_blocked_by_target then
      let uf :=
        if ¬ has_friend user_friends.sent target_npid then
          { user_friends with sent := user_friends.sent ++ [target_npid] }
        else user_friends
      ("OK:RequestSent", { s with files := Function.update s.files npid uf }, [])
    else
      let has_received_request := has_friend user_friends.received target_npid
      let has_target_sent_request := has_friend target_friends.sent npid
      if has_received_request || has_target_sent_request then
        let uf1 :=
          if has_received_request then
            { user_friends with received := remove_friend user_friends.received target_npid }
          else user_friends
        let tf1 :=
          if has_target_sent_request then
            { target_friends with sent := remove_friend target_friends.sent npid }
          else target_friends
        let uf2 := { uf1 with friends := uf1.friends ++ [target_npid] }
        let tf2 := { tf1 with friends := tf1.friends ++ [npid] }
        ("OK:FriendAdded",
         { s with files := Function.update (Function.update s.files npid uf2) target_npid tf2 },
         [])
      else
        let uf := { user_friends with sent := user_friends.sent ++ [target_npid] }
        let tf := { target_friends with received := target_friends.received ++ [npid] }
        let s1 :=
          { s with files := Function.update (Function.update s.files npid uf) target_npid tf }
        let s2 := push_friend_event s1 target_npid "friends_request_received" npid now
        ("OK:RequestSent", s2, [target_npid])

/-- handle_friend_accept from friend.cpp, after authentication. -/
def handle_friend_accept (users : List String) (npid target_npid : String)
    (s : FriendState) : String × FriendState × List String :=
  if target_npid = "" then ("ERR:MissingTargetNPID", s, [])
  else if ¬ users.contains target_npid then ("ERR:UserNotFound", s, [])
  else
    let user_friends := s.files npid
    let target_friends := s.files target_npid
    if ¬ has_friend user_friends.received target_npid then ("ERR:NoRequestFound", s, [])
    else
      let uf1 := { user_friends with
        received := remove_friend user_friends.received target_npid }
      let tf1 := { target_friends with sent := remove_friend target_friends.sent npid }
      let uf2 := { uf1 with friends := uf1.friends ++ [target_npid] }
      let tf2 := { tf1 with friends := tf1.friends ++ [npid] }
      ("OK:FriendAdded",
       { s with files := Function.update (Function.update s.files npid uf2) target_npid tf2 },
       [])

/-- handle_friend_remove from friend.cpp, after authentication. -/
def handle_friend_remove (users : List String) (npid target_npid : String)
    (s : FriendState) : String × FriendState × List String :=
  if target_npid = "" then ("ERR:MissingTargetNPID", s, [])
  else if ¬ users.contains target_npid then ("ERR:UserNotFound", s, [])
  else
    let user_friends := s.files npid
    let target_friends := s.files target_npid
    if ¬ has_friend user_friends.friends target_npid then ("ERR:NotFriends", s, [])
    else
      let uf := { user_friends with
        friends := remove_friend user_friends.friends target_npid }
      let tf := { target_friends with friends := remove_friend target_friends.friends npid }
      ("OK:FriendRemoved",
       { s with files := Function.update (Function.update s.files npid uf) target_npid tf },
       [])

/-- The operations named by the bilateral-consistency claim. -/
inductive FriendOp where
  | add (now : Int) (npid target_npid : String)
  | accept (npid target_npid : String)
  | remove (npid target_npid : String)
deriving DecidableEq, Repr

/-- The state reached after one friend operation (the response and the
notification list are dropped). -/
def applyFriendOp (users : List String) (s : FriendState) : FriendOp → FriendState
  | FriendOp.add now npid target_npid => (handle_friend_add users now npid target_npid s).2.1
  | FriendOp.accept npid target_npid => (handle_friend_accept users npid target_npid s).2.1
  | FriendOp.remove npid target_npid => (handle_friend_remove users npid target_npid s).2.1

/-- The state reached after a sequence of friend operations. -/
def runFriendOps (users : List String) (s : FriendState) (ops : List FriendOp) : FriendState :=
  ops.foldl (applyFriendOp users) s

/-- A friend file mentions an npid when that npid appears in any of its
four sections. -/
def friendFileMentions (f : FriendFile) (npid : String) : Prop :=
  npid ∈ f.friends ∨ npid ∈ f.sent ∨ npid ∈ f.received ∨ npid ∈ f.blocked

/-- The inductive invariant of the bilateral friend state machine under
add, accept and remove: mutual friendship, mirrored requests, no blocked
entries, duplicate-free sections, pairwise-disjoint sections and no self
entries. -/
def FriendInv (s : FriendState) : Prop :=
  (∀ A B, B ∈ (s.files A).friends ↔ A ∈ (s.files B).friends) ∧
  (∀ A B, B ∈ (s.files A).sent ↔ A ∈ (s.files B).received) ∧
  (∀ A, (s.files A).blocked = []) ∧
  (∀ A, (s.files A).friends.Nodup ∧ (s.files A).sent.Nodup ∧ (s.files A).received.Nodup) ∧
  (∀ A B, ¬ (B ∈ (s.files A).friends ∧ B ∈ (s.files A).sent) ∧
          ¬ (B ∈ (s.files A).friends ∧ B ∈ (s.files A).received) ∧
          ¬ (B ∈ (s.files A).sent ∧ B ∈ (s.files A).received)) ∧
  (∀ A, A ∉ (s.files A).friends ∧ A ∉ (s.files A).sent ∧ A ∉ (s.files A).received)

/-- get_friend_events_since from friend.cpp: drain and return the whole
inbox of npid (the since argument does not filter anything). -/
def get_friend_events_since (s : FriendState) (npid : String) :
    List FEvent × FriendState :=
  (s.inbox npid, { s with inbox := Function.update s.inbox npid [] })

/-- The two arrays assembled by the drain loop of handle_friend_poll. -/
structure PollChanges where
  friend_status : List (String × String)
  events : List FEvent
deriving DecidableEq, Repr

/-- One iteration of the event classification loop in handle_friend_poll;
the Bool component is the has_request_received flag. -/
def poll_step (acc : PollChanges × Bool) (e : FEvent) : PollChanges × Bool :=
  let c := acc.1
  let flag := acc.2
  if e.type = "status_changed" then
    ({ c with friend_status := c.friend_status ++ [(e.npid, e.status)] }, flag)
  else if e.type = "friends_request_received" then
    if flag then (c, flag)
    else ({ c with events := c.events ++ [e] }, true)
  else ({ c with events := c.events ++ [e] }, flag)

/-- The classification of a drained inbox performed by handle_friend_poll:
status_changed events are folded into friend_status, other events are kept
in events, except that friends_request_received events after the first one
are discarded. -/
def process_poll_events (events : List FEvent) : PollChanges :=
  (events.foldl poll_step (PollChanges.mk [] [], false)).1

/-! ### Presence sweeper (friend.cpp, monitor_online_users) -/

/-- Lookup in an association list, the analogue of map find. -/
def lookupKey {b : Type} : List (String × b) → String → Option b
  | [], _ => none
  | p :: rest, k => if p.1 = k then some p.2 else lookupKey rest k

/-- Assignment in an association list, the analogue of map operator
bracket: overwrite every binding of the key, or append a fresh one. -/
def setKey {b : Type} (m : List (String × b)) (k : String) (v : b) :
    List (String × b) :=
  if m.any (fun p => p.1 = k) then m.map (fun p => if p.1 = k then (k, v) else p)
  else m ++ [(k, v)]

/-- The in-memory state touched by the monitor_online_users sweeper. -/
structure PresenceState where
  online_users : List (String × Int)
  online_now_playing : List (String × String)
  presence_status : List (String × String)
  pending_online_poll : List String
  last_status_change : List (String × Int)
  friend_events : String → List FEvent

/-- One wake-up of the monitor_online_users sweeper: expire every presence
entry whose heartbeat is more than 30 seconds old (dropping its heartbeat,
now_playing, status and pending_online_poll entries), record the
status-change timestamp for each expired user, then prune status-change
entries and inbox events older than 7 days.  now is the first std::time
call, change_time the second.  The returned list collects the poll-signal
notifications issued by the sweep; the sweeper only writes log lines after
collecting the timed-out users, so the list is empty. -/
def monitor_sweep (now change_time : Int) (st : PresenceState) :
    PresenceState × List String :=
  let timeout_threshold : Int := 30
  let timed_out_users :=
    (st.online_users.filter (fun p => now - p.2 > timeout_threshold)).map (fun p => p.1)
  let online_users1 := st.online_users.filter (fun p => ¬ now - p.2 > timeout_threshold)
  let now_playing1 := st.online_now_playing.filter (fun p => p.1 ∉ timed_out_users)
  let status1 := st.presence_status.filter (fun p => p.1 ∉ timed_out_users)
  let pending1 := st.pending_online_poll.filter (fun n => n ∉ timed_out_users)
  let last1 :=
    timed_out_users.foldl (fun m n => setKey m n change_time) st.last_status_change
  let status_cleanup_age : Int := 604800
  let last2 := last1.filter (fun p => ¬ now - p.2 > status_cleanup_age)
  let events1 := fun npid =>
    (st.friend_events npid).filter (fun e => ¬ now - e.evAt > status_cleanup_age)
  (PresenceState.mk online_users1 now_playing1 status1 pending1 last2 events1, [])

/-! ### String utilities (utils.cpp) -/

/-- The whitespace test used by trim_npid. -/
def is_space (c : Char) : Bool :=
  c = ' ' || c = Char.ofNat 9 || c = Char.ofNat 10 || c = Char.ofNat 13

/-- trim_npid from utils.cpp: strip leading and trailing ASCII whitespace. -/
def trim_npid (npid : String) : String :=
  String.mk (((npid.data.dropWhile is_space).reverse.dropWhile is_space).reverse)

/-- The base64 alphabet b64_table from utils.cpp. -/
def b64_table : List Char :=
  ("ABCDEFGHIJKLMNOPQRSTUVWXYZabcdefghijklmnopqrstuvwxyz0123456789+/").data

/-- The position of a character in b64_table; none models std::string npos. -/
def b64_find (c : Char) : Option Nat := b64_table.indexOf? c

/-- The table character at a 6-bit index. -/
def b64_char (n : Nat) : Char := b64_table.getD n 'A'

/-- base64_encode from utils.cpp over a byte list.  The C++ packs up to
three bytes into val with shifts and masks; for bytes below 256 the ors
are exact sums, and (val shifted right by k) masked to 6 bits is
val / 2 pow k % 64, written with the numerals 262144, 4096, 64. -/
def base64_encode : List Nat → List Char
  | [] => []
  | [a] =>
    let val := a * 65536
    b64_char (val / 262144 % 64) :: b64_char (val / 4096 % 64) ::
      Char.ofNat 61 :: Char.ofNat 61 :: []
  | [a, b] =>
    let val := a * 65536 + b * 256
    b64_char (val / 262144 % 64) :: b64_char (val / 4096 % 64) ::
      b64_char (val / 64 % 64) :: Char.ofNat 61 :: []
  | a :: b :: c :: rest =>
    let val := a * 65536 + b * 256 + c
    b64_char (val / 262144 % 64) :: b64_char (val / 4096 % 64) ::
      b64_char (val / 64 % 64) :: b64_char (val % 64) :: base64_encode rest

/-- The loop of base64_decode from utils.cpp.  val is the C++ accumulator
(a 32-bit int that wraps, but the extraction (val shifted right by valb)
masked to 8 bits only reads bits below valb + 8, at most 12, which agree
with the unbounded Nat value, so val is a Nat here); valb counts the
buffered bits minus 8.  A character outside the table ends the loop. -/
def base64_decode_go : List Char → Nat → Int → List Nat
  | [], _, _ => []
  | ch :: rest, val, valb =>
    match b64_find ch with
    | none => []
    | some idx =>
      let val2 := val * 64 + idx
      let valb2 := valb + 6
      if 0 ≤ valb2 then
        (val2 / 2 ^ valb2.toNat % 256) :: base64_decode_go rest val2 (valb2 - 8)
      else base64_decode_go rest val2 valb2

/-- base64_decode from utils.cpp. -/
def base64_decode (s : List Char) : List Nat := base64_decode_go s 0 (-8)

/-! ### Account engine (account.cpp) -/

/-- The fields of a stored user record consulted by the modelled account
handlers (timestamps and remote addresses never influence control flow). -/
structure UserRec where
  token : String
  password : String
  salt : String
  quota_used : Nat
deriving DecidableEq, Repr

/-- The persisted users.json database: the users table and the token
index. -/
structure AccountDB where
  users : List (String × UserRec)
  tokens : List (String × String)
deriving DecidableEq, Repr

/-- Erasure in an association list, the analogue of map erase. -/
def eraseKey {b : Type} (m : List (String × b)) (k : String) : List (String × b) :=
  m.filter (fun p => p.1 ≠ k)

/-- handle_delete_account from account.cpp, after authentication.  hashFn
models the out-of-scope password pipeline (base64 decode, SHA3-256 with
the salt, base64 encode).  The C++ binds a reference user into
db[users][npid], erases db[tokens][user[token]] (a sound read), then
erases db[users][npid], and only AFTER that erasure reads user[token]
again to evict the in-memory token cache: that second read dereferences a
dangling reference (use-after-free), so its value is indeterminate and is
modelled by the dangling_token argument.  A missing user record would make
the C++ throw on reading the salt of a fresh null object; that path is
modelled by a distinct internal error. -/
def handle_delete_account (hashFn : String → String → String)
    (npid base64_password : String) (dangling_token : String)
    (db : AccountDB) (cache : List (String × String)) :
    String × AccountDB × List (String × String) :=
  if base64_password = "" then ("ERR:MissingPassword", db, cache)
  else
    match lookupKey db.users npid with
    | none => ("ERR:InternalError", db, cache)
    | some user =>
      if user.password ≠ hashFn base64_password user.salt then
        ("ERR:InvalidPassword", db, cache)
      else
        let tokens1 := eraseKey db.tokens user.token
        let users1 := eraseKey db.users npid
        let cache1 := eraseKey cache dangling_token
        ("OK:UserDeleted", AccountDB.mk users1 tokens1, cache1)

/-- handle_create_account from account.cpp: salt and token stand for the
freshly generated values. -/
def handle_create_account (hashFn : String → String → String)
    (salt token : String) (raw_npid base64_password : String) (db : AccountDB)
    (cache : List (String × String)) :
    String × AccountDB × List (String × String) :=
  let npid := trim_npid raw_npid
  if npid = "" ∨ npid.length < 3 ∨ 16 < npid.length then ("ERR:InvalidNPID", db, cache)
  else if base64_password = "" then ("ERR:MissingPassword", db, cache)
  else if (lookupKey db.users npid).isSome then ("ERR:UserExists", db, cache)
  else
    let user := UserRec.mk token (hashFn base64_password salt) salt 0
    ("OK:" ++ token,
     AccountDB.mk (setKey db.users npid user) (setKey db.tokens token npid),
     setKey cache token npid)

/-- handle_change_npid from account.cpp, after authentication.  The C++
copies the record to the new key, erases the old key, rebinds the token
and renames the user directory; it validates only that the trimmed
new_npid is nonempty and not an existing key.  A missing user record would
make the C++ copy a null object and throw on reading its token; that path
is modelled by a distinct internal error. -/
def handle_change_npid (npid raw_new_npid : String) (db : AccountDB)
    (cache : List (String × String)) :
    String × AccountDB × List (String × String) :=
  let new_npid := trim_npid raw_new_npid
  if new_npid = "" then ("ERR:MissingNPID", db, cache)
  else if (lookupKey db.users new_npid).isSome then ("ERR:UserExists", db, cache)
  else
    match lookupKey db.users npid with
    | none => ("ERR:InternalError", db, cache)
    | some user =>
      let users1 := setKey (eraseKey db.users npid) new_npid user
      let tokens1 := setKey db.tokens user.token new_npid
      let cache1 := setKey cache user.token new_npid
      ("OK:NPIDChanged", AccountDB.mk users1 tokens1, cache1)

/-! ### Messaging engine (messages.cpp) -/

/-- Conversation metadata.json. -/
structure ConvMeta where
  conversation_id : String
  participants : List String
  creator : String
  created_at : Int
deriving DecidableEq, Repr

/-- One entry of a conversation messages.json (from is a Lean keyword,
hence from_npid). -/
structure MsgEntry where
  from_npid : String
  msg : String
  timestamp : Int
deriving DecidableEq, Repr

/-- The state touched by the messaging handlers. -/
structure MessagesState where
  users : List String
  metas : String → Option ConvMeta
  msgs : String → List MsgEntry
  userConvs : String → List String

/-- Code-point lexicographic order on char lists, modelling the byte-wise
operator< of std::string. -/
def chars_le : List Char → List Char → Bool
  | [], _ => true
  | _ :: _, [] => false
  | a :: as, b :: bs =>
    if a.toNat < b.toNat then true
    else if b.toNat < a.toNat then false
    else chars_le as bs

/-- Lexicographic order on strings (std::string operator<=). -/
def str_le (a b : String) : Bool := chars_le a.data b.data

/-- Lexicographic insertion used to model std::sort on strings. -/
def insert_sorted (x : String) : List String → List String
  | [] => [x]
  | y :: ys => if str_le x y then x :: y :: ys else y :: insert_sorted x ys

/-- Stable sort of the participant list, modelling std::sort in
generate_conversation_id. -/
def sort_strings : List String → List String
  | [] => []
  | x :: xs => insert_sorted x (sort_strings xs)

/-- generate_conversation_id from messages.cpp: hash stands for
std::hash applied to a std::string, now_ms for the millisecond
timestamp. -/
def generate_conversation_id (hash : String → Nat) (now_ms : Int)
    (participants : List String) : String :=
  let sorted := sort_strings participants
  if sorted.length = 2 then sorted.getD 0 "" ++ "_" ++ sorted.getD 1 ""
  else "group_" ++ toString (hash (String.join sorted ++ toString now_ms))

/-- handle_messages_create from messages.cpp, after authentication and
after the JSON shape checks (participants is an array of strings, message
is a string). -/
def handle_messages_create (hash : String → Nat) (now now_ms : Int)
    (npid : String) (body_participants : List String) (message : String)
    (st : MessagesState) : String × MessagesState :=
  if message = "" ∨ 2000 < message.length then ("ERR:InvalidMessage", st)
  else
    let participants :=
      npid :: (body_participants.map trim_npid).filter (fun p => p ≠ "" ∧ p ≠ npid)
    if participants.length < 2 then ("ERR:NotEnoughParticipants", st)
    else
      match participants.find? (fun p => ¬ st.users.contains p) with
      | some p => ("ERR:ParticipantNotFound:" ++ p, st)
      | none =>
        let conversation_id := generate_conversation_id hash now_ms participants
        if (st.metas conversation_id).isSome then ("ERR:ConversationAlreadyExists", st)
        else
          let metadata := ConvMeta.mk conversation_id participants npid now
          let userConvs1 := participants.foldl (fun uc p =>
            if (uc p).contains conversation_id then uc
            else Function.update uc p (uc p ++ [conversation_id])) st.userConvs
          ("OK:" ++ conversation_id,
           MessagesState.mk st.users
             (Function.update st.metas conversation_id (some metadata))
             (Function.update st.msgs conversation_id [MsgEntry.mk npid message now])
             userConvs1)

/-! ### Theorems -/

/-- Appending on the right keeps the first character of a nonempty string. -/
theorem string_head_append (x y : String) (c : Char) (hx : x.data.head? = some c) :
    (x ++ y).data.head? = some c := by
  rw [String.data_append]
  cases hd : x.data with
  | nil => rw [hd] at hx; simp at hx
  | cons a l => rw [hd] at hx; simpa using hx

/-- Two strings whose first characters disagree are different. -/
theorem string_ne_of_head (x y : String) (h : x.data.head? ≠ y.data.head?) : x ≠ y :=
  fun he => h (congrArg (fun s => s.data.head?) he)

/-- Unfolding lemma: the scan takes the head range when the clamped points
lie below its upper bound. -/
theorem findLevelRange_cons_of_lt {r : LevelRange} {rest : List LevelRange} {p : Int}
    (h : p < r.start_points + (r.end_level - r.start_level + 1) * r.points_per_level) :
    findLevelRange (r :: rest) p =
      some (r.start_level + (p - r.start_points).tdiv r.points_per_level,
            ((p - r.start_points).tmod r.points_per_level * 100).tdiv r.points_per_level) := by
  simp [findLevelRange, h]

/-- Unfolding lemma: the scan skips the head range when the clamped points
reach its upper bound. -/
theorem findLevelRange_cons_of_ge {r : LevelRange} {rest : List LevelRange} {p : Int}
    (h : ¬ p < r.start_points + (r.end_level - r.start_level + 1) * r.points_per_level) :
    findLevelRange (r :: rest) p = findLevelRange rest p := by
  simp [findLevelRange, h]

/-- calculate_trophy_level on points falling in a given row of the table. -/
theorem calculate_trophy_level_in_range (points L E P S : Int)
    (hmem : LevelRange.mk L E P S ∈ trophy_ranges)
    (hlo : S ≤ max points 0) (hhi : max points 0 < S + (E - L + 1) * P) :
    calculate_trophy_level points =
      (L + (max points 0 - S).tdiv P, ((max points 0 - S).tmod P * 100).tdiv P) := by
  have hclamp : (if points < 0 then (0 : Int) else points) = max points 0 := by
    split <;> omega
  unfold calculate_trophy_level
  rw [hclamp]
  generalize hgen : max points 0 = m at hlo hhi ⊢
  simp only [trophy_ranges, List.mem_cons, List.not_mem_nil, or_false,
    LevelRange.mk.injEq] at hmem
  rcases hmem with ⟨rfl, rfl, rfl, rfl⟩ | ⟨rfl, rfl, rfl, rfl⟩ | ⟨rfl, rfl, rfl, rfl⟩ |
    ⟨rfl, rfl, rfl, rfl⟩ | ⟨rfl, rfl, rfl, rfl⟩ | ⟨rfl, rfl, rfl, rfl⟩ | ⟨rfl, rfl, rfl, rfl⟩ |
    ⟨rfl, rfl, rfl, rfl⟩ | ⟨rfl, rfl, rfl, rfl⟩ | ⟨rfl, rfl, rfl, rfl⟩ <;>
  · simp only [trophy_ranges]
    repeat rw [findLevelRange_cons_of_ge (by norm_num; omega)]
    rw [findLevelRange_cons_of_lt (by norm_num; omega)]
    norm_num

/-- calculate_trophy_level saturates at level 999 progress 100 beyond the
last table row. -/
theorem calculate_trophy_level_above (q : Int) (hq : 1634940 ≤ q) :
    calculate_trophy_level q = (999, 100) := by
  have hclamp : (if q < 0 then (0 : Int) else q) = q := by omega
  unfold calculate_trophy_level
  rw [hclamp]
  simp only [trophy_ranges]
  repeat rw [findLevelRange_cons_of_ge (by norm_num; omega)]
  rfl

/-- Claim C7: calculate_trophy_level follows the piecewise-linear table on
the below-clamped points (level = L + (points - S) div P, progress =
((points - S) mod P) * 100 div P in the band with start level L,
points-per-level P and start points S), saturates to level 999 progress 100
at or beyond 1634940 points, and the points fed to it are
15*bronze + 30*silver + 90*gold + 300*platinum. -/
theorem trophy_level_spec (points L E P S : Int)
    (hmem : LevelRange.mk L E P S ∈ trophy_ranges)
    (hlo : S ≤ max points 0) (hhi : max points 0 < S + (E - L + 1) * P) :
    calculate_trophy_level points =
      (L + (max points 0 - S).tdiv P, ((max points 0 - S).tmod P * 100).tdiv P)
    ∧ (∀ q : Int, 1634940 ≤ q → calculate_trophy_level q = (999, 100))
    ∧ (∀ b s g p : Int, trophy_points b s g p = 15 * b + 30 * s + 90 * g + 300 * p) :=
  ⟨calculate_trophy_level_in_range points L E P S hmem hlo hhi,
   fun q hq => calculate_trophy_level_above q hq,
   fun b s g p => by unfold trophy_points; ring⟩

/-- Witness for trophy_level_spec at points 15000 in the third band. -/
theorem trophy_level_spec_witness :
    (LevelRange.mk 200 299 450 14940 ∈ trophy_ranges ∧
     (14940 : Int) ≤ max 15000 0 ∧ (max 15000 0 : Int) < 14940 + (299 - 200 + 1) * 450)
    ∧ (calculate_trophy_level 15000 =
        (200 + ((max 15000 0 : Int) - 14940).tdiv 450,
         (((max 15000 0 : Int) - 14940).tmod 450 * 100).tdiv 450)
      ∧ (∀ q : Int, 1634940 ≤ q → calculate_trophy_level q = (999, 100))
      ∧ (∀ b s g p : Int, trophy_points b s g p = 15 * b + 30 * s + 90 * g + 300 * p)) :=
  ⟨⟨by decide, by norm_num, by norm_num⟩,
   trophy_level_spec 15000 200 299 450 14940 (by decide) (by norm_num) (by norm_num)⟩

/-- Claim C3: for an authenticated upload with valid type and id and a file
present, with delta = newSize - oldSize (oldSize 0 when no file is stored),
the handler answers ERR:QuotaExceeded exactly when delta > 0 and
quota_used + delta > 52428800, in which case the state is untouched; any
request with delta ≤ 0 is accepted, and an accepted request sets
quota_used to quota_used + delta and stores the new file. -/
theorem upload_file_quota_spec (ftype id : String) (newSize : Nat) (st : StorageState)
    (htype : ftype = "savedata" ∨ ftype = "trophy")
    (hid : if ftype = "savedata" then starts_with id "PCS" ∧ id.length = 9
           else starts_with id "NPWR" ∧ id.length = 12)
    (hold : st.stored.getD 0 ≤ st.quota_used)
    (hbound : st.quota_used + newSize < 18446744073709551616) :
    ((handle_upload_file ftype id true newSize st).1 = "ERR:QuotaExceeded" ↔
      ((0 : Int) < (newSize : Int) - (st.stored.getD 0 : Int) ∧
       (st.quota_used : Int) + ((newSize : Int) - (st.stored.getD 0 : Int)) > 52428800))
    ∧ ((handle_upload_file ftype id true newSize st).1 = "ERR:QuotaExceeded" →
        (handle_upload_file ftype id true newSize st).2 = st)
    ∧ ((newSize : Int) - (st.stored.getD 0 : Int) ≤ 0 →
        (handle_upload_file ftype id true newSize st).1 ≠ "ERR:QuotaExceeded")
    ∧ ((handle_upload_file ftype id true newSize st).1 ≠ "ERR:QuotaExceeded" →
        ((handle_upload_file ftype id true newSize st).2.quota_used : Int) =
          (st.quota_used : Int) + ((newSize : Int) - (st.stored.getD 0 : Int))
        ∧ (handle_upload_file ftype id true newSize st).2.stored = some newSize) := by
  have hmod :
      ((((st.quota_used : Int) + ((newSize : Int) - (st.stored.getD 0 : Int))) %
          UINT64_MOD)).toNat =
        st.quota_used + newSize - st.stored.getD 0 := by
    unfold UINT64_MOD
    rw [Int.emod_eq_of_lt (by omega) (by omega)]
    omega
  have hupload :
      handle_upload_file ftype id true newSize st =
        (if (0 : Int) < (newSize : Int) - (st.stored.getD 0 : Int) ∧
            st.quota_used + newSize - st.stored.getD 0 > DEFAULT_QUOTA_TOTAL
         then ("ERR:QuotaExceeded", st)
         else ("OK:" ++ toString (st.quota_used + newSize - st.stored.getD 0) ++ ":" ++
                 toString DEFAULT_QUOTA_TOTAL,
               { quota_used := st.quota_used + newSize - st.stored.getD 0,
                 stored := some newSize })) := by
    unfold handle_upload_file
    rcases htype with h | h <;> subst h <;> simp at hid <;>
      simp [hid.1, hid.2, hmod]
  rw [hupload]
  unfold DEFAULT_QUOTA_TOTAL
  by_cases hc : (0 : Int) < (newSize : Int) - (st.stored.getD 0 : Int) ∧
      st.quota_used + newSize - st.stored.getD 0 > 50 * 1024 * 1024
  · rw [if_pos hc]
    refine ⟨⟨fun _ => ⟨hc.1, by omega⟩, fun _ => rfl⟩, fun _ => rfl, ?_, ?_⟩
    · intro hd _
      exact absurd hc.1 (by omega)
    · intro hne
      exact absurd rfl hne
  · rw [if_neg hc]
    have hne : ("OK:" ++ toString (st.quota_used + newSize - st.stored.getD 0) ++ ":" ++
        toString (50 * 1024 * 1024 : Nat)) ≠ "ERR:QuotaExceeded" := by
      apply string_ne_of_head
      rw [string_head_append _ _ (Char.ofNat 79) (string_head_append _ _ (Char.ofNat 79)
        (string_head_append _ _ (Char.ofNat 79) (by decide)))]
      decide
    refine ⟨⟨fun h => absurd h hne, fun h => absurd ⟨h.1, by omega⟩ hc⟩,
      fun h => absurd h hne, fun _ => hne, fun _ => ⟨by push_cast; omega, rfl⟩⟩

/-- Witness for upload_file_quota_spec: a 1-byte upload over a full quota is
rejected exactly as the quota condition dictates. -/
theorem upload_file_quota_spec_witness :
    ((StorageState.mk 52428800 none).stored.getD 0 ≤ (StorageState.mk 52428800 none).quota_used
     ∧ (StorageState.mk 52428800 none).quota_used + 1 < 18446744073709551616)
    ∧ ((handle_upload_file "savedata" "PCS000001" true 1 (StorageState.mk 52428800 none)).1 =
          "ERR:QuotaExceeded" ↔
        ((0 : Int) < ((1 : Nat) : Int) - ((StorageState.mk 52428800 none).stored.getD 0 : Int) ∧
         ((StorageState.mk 52428800 none).quota_used : Int) +
           (((1 : Nat) : Int) - ((StorageState.mk 52428800 none).stored.getD 0 : Int)) >
             52428800)) :=
  ⟨⟨by decide, by decide⟩,
   (upload_file_quota_spec "savedata" "PCS000001" 1 (StorageState.mk 52428800 none)
      (Or.inl rfl) (by decide) (by decide) (by decide)).1⟩

/-- Membership reading of has_friend. -/
theorem has_friend_iff (l : List String) (n : String) : has_friend l n ↔ n ∈ l := by
  unfold has_friend
  exact List.elem_iff

/-- Claim C4: when the target has blocked the requester and the requester
is neither already friends with the target nor has a pending sent request,
friends/add appends a sent entry on the requester side only, leaves every
other friend file, every inbox and the notification list untouched, and
responds OK:RequestSent. -/
theorem friend_add_blocked_silent (users : List String) (now : Int)
    (npid target_npid : String) (s : FriendState)
    (hne : target_npid ≠ "") (hself : npid ≠ target_npid)
    (hexists : users.contains target_npid = true)
    (hblocked : npid ∈ (s.files target_npid).blocked)
    (hnotfriends : target_npid ∉ (s.files npid).friends)
    (hnotsent : target_npid ∉ (s.files npid).sent) :
    (handle_friend_add users now npid target_npid s).1 = "OK:RequestSent" ∧
    (handle_friend_add users now npid target_npid s).2.1.files npid =
      { s.files npid with sent := (s.files npid).sent ++ [target_npid] } ∧
    (∀ u, u ≠ npid →
      (handle_friend_add users now npid target_npid s).2.1.files u = s.files u) ∧
    (handle_friend_add users now npid target_npid s).2.1.inbox = s.inbox ∧
    (handle_friend_add users now npid target_npid s).2.2 = [] := by
  have hadd : handle_friend_add users now npid target_npid s =
      ("OK:RequestSent",
       FriendState.mk
         (Function.update s.files npid
           (FriendFile.mk (s.files npid).friends ((s.files npid).sent ++ [target_npid])
             (s.files npid).received (s.files npid).blocked))
         s.inbox,
       []) := by
    unfold handle_friend_add
    rw [if_neg hne, if_neg hself, if_neg (by simpa using hexists)]
    dsimp only
    rw [if_neg (by simp [has_friend, hnotfriends]),
      if_neg (by simp [has_friend, hnotsent]),
      if_pos (by simp [has_friend, hblocked]),
      if_pos (by simp [has_friend, hnotsent])]
  rw [hadd]
  refine ⟨rfl, by simp, fun u hu => ?_, rfl, rfl⟩
  simp [Function.update_apply, hu]

/-- Witness for friend_add_blocked_silent: user A adds user B after B
blocked A. -/
theorem friend_add_blocked_silent_witness :
    (("B" : String) ≠ "" ∧ ("A" : String) ≠ "B" ∧
      (["A", "B"].contains ("B" : String) = true) ∧
      ("A" : String) ∈ ((fun u => if u = "B" then FriendFile.mk [] [] [] ["A"]
        else emptyFriendFile) ("B" : String)).blocked)
    ∧ ((handle_friend_add ["A", "B"] 7 "A" "B"
          (FriendState.mk
            (fun u => if u = "B" then FriendFile.mk [] [] [] ["A"] else emptyFriendFile)
            (fun _ => []))).1 = "OK:RequestSent" ∧
       (handle_friend_add ["A", "B"] 7 "A" "B"
          (FriendState.mk
            (fun u => if u = "B" then FriendFile.mk [] [] [] ["A"] else emptyFriendFile)
            (fun _ => []))).2.1.files "A" =
        { (FriendState.mk
            (fun u => if u = "B" then FriendFile.mk [] [] [] ["A"] else emptyFriendFile)
            (fun _ => [])).files "A" with
            sent := ((FriendState.mk
              (fun u => if u = "B" then FriendFile.mk [] [] [] ["A"] else emptyFriendFile)
              (fun _ => [])).files "A").sent ++ ["B"] } ∧
       (∀ u, u ≠ "A" →
        (handle_friend_add ["A", "B"] 7 "A" "B"
          (FriendState.mk
            (fun u => if u = "B" then FriendFile.mk [] [] [] ["A"] else emptyFriendFile)
            (fun _ => []))).2.1.files u =
          (FriendState.mk
            (fun u => if u = "B" then FriendFile.mk [] [] [] ["A"] else emptyFriendFile)
            (fun _ => [])).files u) ∧
       (handle_friend_add ["A", "B"] 7 "A" "B"
          (FriendState.mk
            (fun u => if u = "B" then FriendFile.mk [] [] [] ["A"] else emptyFriendFile)
            (fun _ => []))).2.1.inbox =
        (FriendState.mk
            (fun u => if u = "B" then FriendFile.mk [] [] [] ["A"] else emptyFriendFile)
            (fun _ => [])).inbox ∧
       (handle_friend_add ["A", "B"] 7 "A" "B"
          (FriendState.mk
            (fun u => if u = "B" then FriendFile.mk [] [] [] ["A"] else emptyFriendFile)
            (fun _ => []))).2.2 = []) :=
  ⟨⟨by decide, by decide, by decide, by simp⟩,
   friend_add_blocked_silent ["A", "B"] 7 "A" "B"
     (FriendState.mk
       (fun u => if u = "B" then FriendFile.mk [] [] [] ["A"] else emptyFriendFile)
       (fun _ => []))
     (by decide) (by decide) (by decide) (by simp) (by simp [emptyFriendFile])
     (by simp [emptyFriendFile])⟩

/-- Once the has_request_received flag is set, the classification loop
never adds another friends_request_received event. -/
theorem poll_foldl_filter_true (events : List FEvent) :
    ∀ c : PollChanges,
      ((events.foldl poll_step (c, true)).1.events.filter
        (fun e => e.type == "friends_request_received")) =
      c.events.filter (fun e => e.type == "friends_request_received") := by
  induction events with
  | nil => intro c; rfl
  | cons e rest ih =>
    intro c
    rw [List.foldl_cons]
    by_cases h1 : e.type = "status_changed"
    · have hstep : poll_step (c, true) e =
          (PollChanges.mk (c.friend_status ++ [(e.npid, e.status)]) c.events, true) := by
        simp [poll_step, h1]
      rw [hstep, ih]
    · by_cases h2 : e.type = "friends_request_received"
      · have hstep : poll_step (c, true) e = (c, true) := by
          simp [poll_step, h1, h2]
        rw [hstep, ih]
      · have hstep : poll_step (c, true) e =
            (PollChanges.mk c.friend_status (c.events ++ [e]), true) := by
          simp [poll_step, h1, h2]
        rw [hstep, ih]
        have he : (e.type == "friends_request_received") = false := by
          simpa using h2
        simp [List.filter_append, he]

/-- Before the flag is set, the classification loop keeps exactly the
first friends_request_received event of the remaining input. -/
theorem poll_foldl_filter_false (events : List FEvent) :
    ∀ c : PollChanges,
      ((events.foldl poll_step (c, false)).1.events.filter
        (fun e => e.type == "friends_request_received")) =
      c.events.filter (fun e => e.type == "friends_request_received") ++
        (events.find? (fun e => e.type == "friends_request_received")).toList := by
  induction events with
  | nil => intro c; simp
  | cons e rest ih =>
    intro c
    rw [List.foldl_cons]
    by_cases h2 : e.type = "friends_request_received"
    · have h1 : ¬ e.type = "status_changed" := by rw [h2]; decide
      have hstep : poll_step (c, false) e =
          (PollChanges.mk c.friend_status (c.events ++ [e]), true) := by
        simp [poll_step, h1, h2]
      rw [hstep, poll_foldl_filter_true]
      have he : (e.type == "friends_request_received") = true := by simpa using h2
      rw [@List.find?_cons_of_pos FEvent (fun x => x.type == "friends_request_received")
        e rest he]
      simp [List.filter_append, he]
    · by_cases h1 : e.type = "status_changed"
      · have hstep : poll_step (c, false) e =
            (PollChanges.mk (c.friend_status ++ [(e.npid, e.status)]) c.events, false) := by
          simp [poll_step, h1]
        rw [hstep, ih]
        rw [@List.find?_cons_of_neg FEvent (fun x => x.type == "friends_request_received")
          e rest (by simpa using h2)]
      · have hstep : poll_step (c, false) e =
            (PollChanges.mk c.friend_status (c.events ++ [e]), false) := by
          simp [poll_step, h1, h2]
        rw [hstep, ih]
        rw [@List.find?_cons_of_neg FEvent (fun x => x.type == "friends_request_received")
          e rest (by simpa using h2)]
        have he : (e.type == "friends_request_received") = false := by simpa using h2
        simp [List.filter_append, he]

/-- Counterexample to claim C2 as stated: an inbox drained with pending
friends_request_received events from two distinct senders X and Y returns
no event at all for sender Y, because the handler deduplicates with a
single flag rather than per sender. -/
theorem friend_poll_dedup_counterexample :
    ¬ (∀ e ∈ [FEvent.mk "friends_request_received" "X" "" 1,
              FEvent.mk "friends_request_received" "Y" "" 2],
        e.type = "friends_request_received" →
        ((process_poll_events [FEvent.mk "friends_request_received" "X" "" 1,
            FEvent.mk "friends_request_received" "Y" "" 2]).events.countP
          (fun e2 => e2.type == "friends_request_received" && e2.npid == e.npid)) = 1) := by
  decide

/-- Claim C2 (amended): a drain returns at most one friends_request_received
event in total, namely exactly the first one of the drained inbox in
arrival order (requests from any further sender are discarded for that
drain), and the drain empties the inbox. -/
theorem friend_poll_request_dedup (s : FriendState) (npid : String) :
    ((process_poll_events (get_friend_events_since s npid).1).events.countP
        (fun e => e.type == "friends_request_received")) ≤ 1 ∧
    ((process_poll_events (get_friend_events_since s npid).1).events.filter
        (fun e => e.type == "friends_request_received")) =
      ((get_friend_events_since s npid).1.find?
        (fun e => e.type == "friends_request_received")).toList ∧
    (get_friend_events_since s npid).2.inbox npid = [] := by
  have h := poll_foldl_filter_false (get_friend_events_since s npid).1 (PollChanges.mk [] [])
  unfold process_poll_events
  refine ⟨?_, ?_, ?_⟩
  · rw [List.countP_eq_length_filter, h]
    simp only [List.filter_nil, List.nil_append]
    cases (get_friend_events_since s npid).1.find?
        (fun e => e.type == "friends_request_received") <;> simp
  · simpa using h
  · unfold get_friend_events_since
    simp

/-- In an association list with duplicate-free keys, a key determines its
value. -/
theorem keys_nodup_mem_eq {b : Type} :
    ∀ (m : List (String × b)) (k : String) (a c : b),
      (m.map Prod.fst).Nodup → (k, a) ∈ m → (k, c) ∈ m → a = c := by
  intro m
  induction m with
  | nil => simp
  | cons p rest ih =>
    intro k a c hnd ha hc
    rw [List.map_cons, List.nodup_cons] at hnd
    obtain ⟨hnotin, hnd2⟩ := hnd
    rcases List.mem_cons.mp ha with ha1 | ha1 <;> rcases List.mem_cons.mp hc with hc1 | hc1
    · rw [← ha1] at hc1
      exact congrArg Prod.snd hc1.symm
    · exfalso
      apply hnotin
      have hk : (k : String) ∈ rest.map Prod.fst := List.mem_map_of_mem Prod.fst hc1
      rw [← ha1]
      simpa using hk
    · exfalso
      apply hnotin
      have hk : (k : String) ∈ rest.map Prod.fst := List.mem_map_of_mem Prod.fst ha1
      rw [← hc1]
      simpa using hk
    · exact ih k a c hnd2 ha1 hc1

/-- Overwriting every binding of a key makes it look up to the new value,
provided the key is bound. -/
theorem lookupKey_map_overwrite {b : Type} (k : String) (v : b) :
    ∀ m : List (String × b), m.any (fun p => p.1 = k) →
      lookupKey (m.map (fun p => if p.1 = k then (k, v) else p)) k = some v := by
  intro m
  induction m with
  | nil => intro h; simp at h
  | cons p rest ih =>
    intro h
    by_cases hp : p.1 = k
    · simp [lookupKey, hp]
    · have hrest : rest.any (fun p => p.1 = k) := by simpa [hp] using h
      simp only [List.map_cons]
      rw [if_neg hp]
      rw [show lookupKey (p :: List.map (fun p => if p.1 = k then (k, v) else p) rest) k =
        if p.1 = k then some p.2
        else lookupKey (List.map (fun p => if p.1 = k then (k, v) else p) rest) k from rfl]
      rw [if_neg hp]
      exact ih hrest

/-- Appending a fresh binding makes the key look up to its value when the
key was unbound. -/
theorem lookupKey_append_fresh {b : Type} (k : String) (v : b) :
    ∀ m : List (String × b), ¬ m.any (fun p => p.1 = k) →
      lookupKey (m ++ [(k, v)]) k = some v := by
  intro m
  induction m with
  | nil => intro _; simp [lookupKey]
  | cons p rest ih =>
    intro h
    have hp : ¬ p.1 = k := by
      intro hk
      exact h (by simp [hk])
    have hrest : ¬ rest.any (fun p => p.1 = k) := by
      intro hk
      exact h (by simp [hk])
    simp only [List.cons_append, lookupKey, if_neg hp]
    exact ih hrest

/-- setKey binds its key to its value. -/
theorem lookupKey_setKey_self {b : Type} (m : List (String × b)) (k : String) (v : b) :
    lookupKey (setKey m k v) k = some v := by
  unfold setKey
  by_cases h : m.any (fun p => p.1 = k)
  · rw [if_pos h]
    exact lookupKey_map_overwrite k v m h
  · rw [if_neg h]
    exact lookupKey_append_fresh k v m h

/-- Overwriting the bindings of one key does not change the lookup of
another. -/
theorem lookupKey_map_other {b : Type} (k k2 : String) (v : b) (h : k2 ≠ k) :
    ∀ m : List (String × b),
      lookupKey (m.map (fun p => if p.1 = k then (k, v) else p)) k2 = lookupKey m k2 := by
  intro m
  induction m with
  | nil => rfl
  | cons p rest ih =>
    by_cases hp : p.1 = k
    · have hp2 : ¬ p.1 = k2 := by
        rw [hp]
        exact Ne.symm h
      simp only [List.map_cons]
      rw [if_pos hp]
      rw [show lookupKey ((k, v) :: List.map (fun p => if p.1 = k then (k, v) else p) rest) k2 =
        if k = k2 then some v
        else lookupKey (List.map (fun p => if p.1 = k then (k, v) else p) rest) k2 from rfl]
      rw [if_neg (Ne.symm h)]
      rw [show lookupKey (p :: rest) k2 =
        if p.1 = k2 then some p.2 else lookupKey rest k2 from rfl]
      rw [if_neg hp2]
      exact ih
    · by_cases hp2 : p.1 = k2
      · simp only [List.map_cons]
        rw [if_neg hp]
        rw [show lookupKey (p :: List.map (fun p => if p.1 = k then (k, v) else p) rest) k2 =
          if p.1 = k2 then some p.2
          else lookupKey (List.map (fun p => if p.1 = k then (k, v) else p) rest) k2 from rfl]
        rw [show lookupKey (p :: rest) k2 =
          if p.1 = k2 then some p.2 else lookupKey rest k2 from rfl]
        rw [if_pos hp2, if_pos hp2]
      · simp only [List.map_cons]
        rw [if_neg hp]
        rw [show lookupKey (p :: List.map (fun p => if p.1 = k then (k, v) else p) rest) k2 =
          if p.1 = k2 then some p.2
          else lookupKey (List.map (fun p => if p.1 = k then (k, v) else p) rest) k2 from rfl]
        rw [show lookupKey (p :: rest) k2 =
          if p.1 = k2 then some p.2 else lookupKey rest k2 from rfl]
        rw [if_neg hp2, if_neg hp2]
        exact ih

/-- Appending a binding for one key does not change the lookup of
another. -/
theorem lookupKey_append_other {b : Type} (k k2 : String) (v : b) (h : k2 ≠ k) :
    ∀ m : List (String × b), lookupKey (m ++ [(k, v)]) k2 = lookupKey m k2 := by
  intro m
  induction m with
  | nil => simp [lookupKey, Ne.symm h]
  | cons p rest ih =>
    by_cases hp2 : p.1 = k2
    · simp only [List.cons_append]
      rw [show lookupKey (p :: (rest ++ [(k, v)])) k2 =
        if p.1 = k2 then some p.2 else lookupKey (rest ++ [(k, v)]) k2 from rfl]
      rw [show lookupKey (p :: rest) k2 =
        if p.1 = k2 then some p.2 else lookupKey rest k2 from rfl]
      rw [if_pos hp2, if_pos hp2]
    · simp only [List.cons_append]
      rw [show lookupKey (p :: (rest ++ [(k, v)])) k2 =
        if p.1 = k2 then some p.2 else lookupKey (rest ++ [(k, v)]) k2 from rfl]
      rw [show lookupKey (p :: rest) k2 =
        if p.1 = k2 then some p.2 else lookupKey rest k2 from rfl]
      rw [if_neg hp2, if_neg hp2]
      exact ih

/-- setKey leaves the lookup of any other key unchanged. -/
theorem lookupKey_setKey_other {b : Type} (m : List (String × b)) (k k2 : String) (v : b)
    (h : k2 ≠ k) : lookupKey (setKey m k v) k2 = lookupKey m k2 := by
  unfold setKey
  by_cases hany : m.any (fun p => p.1 = k)
  · rw [if_pos hany]
    exact lookupKey_map_other k k2 v h m
  · rw [if_neg hany]
    exact lookupKey_append_other k k2 v h m

/-- After folding setKey over a key list, every listed key looks up to the
written value. -/
theorem lookupKey_foldl_setKey {b : Type} (v : b) (k : String) :
    ∀ (l : List String) (m : List (String × b)),
      (k ∈ l ∨ lookupKey m k = some v) →
      lookupKey (l.foldl (fun m2 n => setKey m2 n v) m) k = some v := by
  intro l
  induction l with
  | nil =>
    intro m h
    rcases h with h | h
    · simp at h
    · simpa using h
  | cons n rest ih =>
    intro m h
    rw [List.foldl_cons]
    apply ih
    by_cases hn : k = n
    · right
      rw [hn]
      exact lookupKey_setKey_self m n v
    · rcases h with h | h
      · rcases List.mem_cons.mp h with h1 | h1
        · exact absurd h1 hn
        · exact Or.inl h1
      · right
        rw [lookupKey_setKey_other m n k v hn]
        exact h

/-- Filtering by a predicate that holds on the bound pair preserves a
lookup. -/
theorem lookupKey_filter {b : Type} (pred : String × b → Bool) :
    ∀ (m : List (String × b)) (k : String) (v : b),
      lookupKey m k = some v → pred (k, v) = true →
      lookupKey (m.filter pred) k = some v := by
  intro m
  induction m with
  | nil => intro k v h _; simp [lookupKey] at h
  | cons p rest ih =>
    intro k v h hp
    by_cases hk : p.1 = k
    · have hv : p.2 = v := by
        have := h
        rw [lookupKey, if_pos hk] at this
        exact Option.some.inj this
      have hpair : p = (k, v) := by
        cases p
        simp only at hk hv
        rw [hk, hv]
      subst hpair
      rw [List.filter_cons, if_pos hp, lookupKey, if_pos rfl]
    · have h2 : lookupKey rest k = some v := by
        have := h
        rw [lookupKey, if_neg hk] at this
        exact this
      rw [List.filter_cons]
      by_cases hkeep : pred p
      · rw [if_pos hkeep, lookupKey, if_neg hk]
        exact ih k v h2 hp
      · rw [if_neg hkeep]
        exact ih k v h2 hp

/-- Claim C6: a sweep removes every presence entry whose heartbeat is more
than 30 seconds old, dropping its heartbeat, now_playing, status and
pending_online_poll entries and recording the status-change timestamp; it
pushes no event into any inbox (each inbox only loses events older than 7
days, hence stays a sublist of itself) and notifies no friend poll
signal. -/
theorem monitor_sweep_spec (now change_time : Int) (st : PresenceState)
    (npid : String) (t : Int)
    (hkeys : (st.online_users.map Prod.fst).Nodup)
    (hmem : (npid, t) ∈ st.online_users)
    (hexp : now - t > 30)
    (hfresh : ¬ now - change_time > 604800) :
    (∀ t2, (npid, t2) ∉ (monitor_sweep now change_time st).1.online_users) ∧
    (∀ x, (npid, x) ∉ (monitor_sweep now change_time st).1.online_now_playing) ∧
    (∀ x, (npid, x) ∉ (monitor_sweep now change_time st).1.presence_status) ∧
    npid ∉ (monitor_sweep now change_time st).1.pending_online_poll ∧
    lookupKey (monitor_sweep now change_time st).1.last_status_change npid =
      some change_time ∧
    (∀ u, (monitor_sweep now change_time st).1.friend_events u =
      (st.friend_events u).filter (fun e => ¬ now - e.evAt > 604800)) ∧
    (∀ u, ((monitor_sweep now change_time st).1.friend_events u).Sublist
      (st.friend_events u)) ∧
    (monitor_sweep now change_time st).2 = [] := by
  have hTO : npid ∈ (st.online_users.filter (fun p => now - p.2 > 30)).map Prod.fst := by
    exact List.mem_map_of_mem Prod.fst (List.mem_filter.mpr ⟨hmem, by simpa using hexp⟩)
  unfold monitor_sweep
  dsimp only
  refine ⟨?_, ?_, ?_, ?_, ?_, fun u => rfl, fun u => List.filter_sublist _, rfl⟩
  · intro t2 hmem2
    obtain ⟨hin, hcond⟩ := List.mem_filter.mp hmem2
    have ht2 : t2 = t := keys_nodup_mem_eq st.online_users npid t2 t hkeys hin hmem
    rw [ht2] at hcond
    simp at hcond
    omega
  · intro x hx
    obtain ⟨_, hcond⟩ := List.mem_filter.mp hx
    exact absurd hTO (of_decide_eq_true hcond)
  · intro x hx
    obtain ⟨_, hcond⟩ := List.mem_filter.mp hx
    exact absurd hTO (of_decide_eq_true hcond)
  · intro hx
    obtain ⟨_, hcond⟩ := List.mem_filter.mp hx
    exact absurd hTO (of_decide_eq_true hcond)
  · apply lookupKey_filter
    · apply lookupKey_foldl_setKey
      exact Or.inl hTO
    · simpa using hfresh

/-- Witness for monitor_sweep_spec: user A last heartbeat at 0, swept at
100; user B at 100 stays. -/
theorem monitor_sweep_spec_witness :
    (((PresenceState.mk [("A", 0), ("B", 100)] [] [] [] [] (fun _ => [])).online_users.map
        Prod.fst).Nodup ∧
     (("A", (0 : Int)) ∈
        (PresenceState.mk [("A", 0), ("B", 100)] [] [] [] [] (fun _ => [])).online_users) ∧
     (100 : Int) - 0 > 30 ∧ ¬ (100 : Int) - 100 > 604800)
    ∧ lookupKey (monitor_sweep 100 100
        (PresenceState.mk [("A", 0), ("B", 100)] [] [] [] [] (fun _ => []))).1.last_status_change
        "A" = some 100 :=
  ⟨⟨by decide, by decide, by decide, by decide⟩,
   (monitor_sweep_spec 100 100
      (PresenceState.mk [("A", 0), ("B", 100)] [] [] [] [] (fun _ => []))
      "A" 0 (by decide) (by decide) (by decide) (by decide)).2.2.2.2.1⟩

/-- Pointwise reading of a double Function.update. -/
theorem update2_apply (f : String → FriendFile) (n t : String) (uf tf : FriendFile)
    (X : String) :
    Function.update (Function.update f n uf) t tf X =
      if X = t then tf else if X = n then uf else f X := by
  rcases eq_or_ne X t with rfl | hXt
  · simp
  · rcases eq_or_ne X n with rfl | hXn
    · simp [Function.update_apply, hXt]
    · simp [Function.update_apply, hXt, hXn]

/-- FriendInv is preserved by promoting a pending request (npid had a
received entry from target) to a friendship on both sides: the shape shared
by handle_friend_accept and the auto-accept branch of handle_friend_add. -/
theorem friendInv_promote (f : String → FriendFile) (ibx ibx2 : String → List FEvent)
    (npid target : String)
    (h : FriendInv (FriendState.mk f ibx))
    (hrecv : target ∈ (f npid).received) :
    FriendInv (FriendState.mk
      (Function.update (Function.update f npid
        (FriendFile.mk ((f npid).friends ++ [target]) (f npid).sent
          (remove_friend (f npid).received target) (f npid).blocked))
        target
        (FriendFile.mk ((f target).friends ++ [npid])
          (remove_friend (f target).sent npid) (f target).received (f target).blocked))
      ibx2) := by
  unfold FriendInv at h ⊢
  obtain ⟨h1, h2, h3, h4, h5, h6⟩ := h
  dsimp only at h1 h2 h3 h4 h5 h6 ⊢
  have hne : npid ≠ target := by
    intro e
    rw [← e] at hrecv
    exact (h6 npid).2.2 hrecv
  have hsent : npid ∈ (f target).sent := (h2 target npid).mpr hrecv
  have hnotfr : target ∉ (f npid).friends := fun hf => (h5 npid target).2.1 ⟨hf, hrecv⟩
  have hnotfr2 : npid ∉ (f target).friends := fun hf => hnotfr ((h1 npid target).mpr hf)
  have hnotsent : target ∉ (f npid).sent := fun hs => (h5 npid target).2.2 ⟨hs, hrecv⟩
  have hnotrecv2 : npid ∉ (f target).received := fun hr => (h5 target npid).2.2 ⟨hsent, hr⟩
  have erS : ∀ X, X ∈ remove_friend (f target).sent npid ↔ X ≠ npid ∧ X ∈ (f target).sent := by
    intro X
    unfold remove_friend
    exact List.Nodup.mem_erase_iff (h4 target).2.1
  have erR : ∀ X, X ∈ remove_friend (f npid).received target ↔
      X ≠ target ∧ X ∈ (f npid).received := by
    intro X
    unfold remove_friend
    exact List.Nodup.mem_erase_iff (h4 npid).2.2
  have hne2 : target ≠ npid := Ne.symm hne
  refine ⟨?_, ?_, ?_, ?_, ?_, ?_⟩
  · -- friends mutual
    intro A B
    have i1AB := h1 A B
    rw [update2_apply, update2_apply]
    rcases eq_or_ne A target with rfl | hAt
    · rw [if_pos rfl]
      rcases eq_or_ne B A with rfl | hBA
      · rw [if_pos rfl]
      · rcases eq_or_ne B npid with rfl | hBn
        · rw [if_neg hBA, if_pos rfl]
          simp [List.mem_append]
        · rw [if_neg hBA, if_neg hBn]
          dsimp only
          simp only [List.mem_append, List.mem_singleton]
          tauto
    · rw [if_neg hAt]
      rcases eq_or_ne A npid with rfl | hAn
      · rw [if_pos rfl]
        rcases eq_or_ne B target with rfl | hBt
        · rw [if_pos rfl]
          simp [List.mem_append]
        · rcases eq_or_ne B A with rfl | hBA
          · rw [if_neg hBt, if_pos rfl]
          · rw [if_neg hBt, if_neg hBA]
            dsimp only
            simp only [List.mem_append, List.mem_singleton]
            tauto
      · rw [if_neg hAn]
        rcases eq_or_ne B target with rfl | hBt
        · rw [if_pos rfl]
          dsimp only
          simp only [List.mem_append, List.mem_singleton]
          tauto
        · rcases eq_or_ne B npid with rfl | hBn
          · rw [if_neg hBt, if_pos rfl]
            dsimp only
            simp only [List.mem_append, List.mem_singleton]
            tauto
          · rw [if_neg hBt, if_neg hBn]
            exact i1AB
  · -- sent mirrored
    intro A B
    have i2AB := h2 A B
    have i6A := h6 A
    have i6B := h6 B
    rw [update2_apply, update2_apply]
    rcases eq_or_ne A target with rfl | hAt
    · rw [if_pos rfl]
      rcases eq_or_ne B A with rfl | hBA
      · rw [if_pos rfl]
        dsimp only
        simp only [erS, erR]
        tauto
      · rcases eq_or_ne B npid with rfl | hBn
        · rw [if_neg hBA, if_pos rfl]
          dsimp only
          simp only [erS, erR]
          tauto
        · rw [if_neg hBA, if_neg hBn]
          dsimp only
          simp only [erS, erR]
          tauto
    · rw [if_neg hAt]
      rcases eq_or_ne A npid with rfl | hAn
      · rw [if_pos rfl]
        rcases eq_or_ne B target with rfl | hBt
        · rw [if_pos rfl]
          dsimp only
          exact i2AB
        · rcases eq_or_ne B A with rfl | hBA
          · rw [if_neg hBt, if_pos rfl]
            dsimp only
            simp only [erS, erR]
            tauto
          · rw [if_neg hBt, if_neg hBA]
            dsimp only
            exact i2AB
      · rw [if_neg hAn]
        rcases eq_or_ne B target with rfl | hBt
        · rw [if_pos rfl]
          dsimp only
          exact i2AB
        · rcases eq_or_ne B npid with rfl | hBn
          · rw [if_neg hBt, if_pos rfl]
            dsimp only
            simp only [erS, erR]
            tauto
          · rw [if_neg hBt, if_neg hBn]
            exact i2AB
  · -- blocked empty
    intro A
    rw [update2_apply]
    rcases eq_or_ne A target with rfl | hAt
    · rw [if_pos rfl]
      exact h3 A
    · rw [if_neg hAt]
      rcases eq_or_ne A npid with rfl | hAn
      · rw [if_pos rfl]
        exact h3 A
      · rw [if_neg hAn]
        exact h3 A
  · -- nodup
    intro A
    rw [update2_apply]
    rcases eq_or_ne A target with rfl | hAt
    · rw [if_pos rfl]
      dsimp only
      refine ⟨?_, ?_, (h4 A).2.2⟩
      · simp [List.nodup_append, (h4 A).1, hnotfr2]
      · exact List.Nodup.erase npid (h4 A).2.1
    · rw [if_neg hAt]
      rcases eq_or_ne A npid with rfl | hAn
      · rw [if_pos rfl]
        dsimp only
        refine ⟨?_, (h4 A).2.1, ?_⟩
        · simp [List.nodup_append, (h4 A).1, hnotfr]
        · exact List.Nodup.erase target (h4 A).2.2
      · rw [if_neg hAn]
        exact h4 A
  · -- disjoint
    intro A B
    have i5AB := h5 A B
    have dRB : B = npid → B ∉ (f target).received := fun e => by
      rw [e]
      exact hnotrecv2
    have dSB : B = target → B ∉ (f npid).sent := fun e => by
      rw [e]
      exact hnotsent
    rw [update2_apply]
    rcases eq_or_ne A target with rfl | hAt
    · rw [if_pos rfl]
      dsimp only
      simp only [List.mem_append, List.mem_singleton, erS, erR]
      refine ⟨?_, ?_, ?_⟩
      · rintro ⟨hf | he, hs⟩
        · exact i5AB.1 ⟨hf, hs.2⟩
        · exact hs.1 he
      · rintro ⟨hf | he, hr⟩
        · exact i5AB.2.1 ⟨hf, hr⟩
        · exact dRB he hr
      · rintro ⟨hs, hr⟩
        exact i5AB.2.2 ⟨hs.2, hr⟩
    · rw [if_neg hAt]
      rcases eq_or_ne A npid with rfl | hAn
      · rw [if_pos rfl]
        dsimp only
        simp only [List.mem_append, List.mem_singleton, erS, erR]
        refine ⟨?_, ?_, ?_⟩
        · rintro ⟨hf | he, hs⟩
          · exact i5AB.1 ⟨hf, hs⟩
          · exact dSB he hs
        · rintro ⟨hf | he, hr⟩
          · exact i5AB.2.1 ⟨hf, hr.2⟩
          · exact hr.1 he
        · rintro ⟨hs, hr⟩
          exact i5AB.2.2 ⟨hs, hr.2⟩
      · rw [if_neg hAn]
        exact i5AB
  · -- no self entries
    intro A
    have i6A := h6 A
    rw [update2_apply]
    rcases eq_or_ne A target with rfl | hAt
    · rw [if_pos rfl]
      dsimp only
      simp only [List.mem_append, List.mem_singleton, erS, erR]
      refine ⟨?_, ?_, i6A.2.2⟩
      · rintro (hf | he)
        · exact i6A.1 hf
        · exact hne2 he
      · rintro ⟨hx, hs⟩
        exact i6A.2.1 hs
    · rw [if_neg hAt]
      rcases eq_or_ne A npid with rfl | hAn
      · rw [if_pos rfl]
        dsimp only
        simp only [List.mem_append, List.mem_singleton, erS, erR]
        refine ⟨?_, i6A.2.1, ?_⟩
        · rintro (hf | he)
          · exact i6A.1 hf
          · exact hne he
        · rintro ⟨hx, hr⟩
          exact i6A.2.2 hr
      · rw [if_neg hAn]
        exact i6A

/-- FriendInv is preserved by removing a friendship on both sides. -/
theorem friendInv_unfriend (f : String → FriendFile) (ibx ibx2 : String → List FEvent)
    (npid target : String)
    (h : FriendInv (FriendState.mk f ibx))
    (hfr : target ∈ (f npid).friends) :
    FriendInv (FriendState.mk
      (Function.update (Function.update f npid
        (FriendFile.mk (remove_friend (f npid).friends target) (f npid).sent
          (f npid).received (f npid).blocked))
        target
        (FriendFile.mk (remove_friend (f target).friends npid) (f target).sent
          (f target).received (f target).blocked))
      ibx2) := by
  unfold FriendInv at h ⊢
  obtain ⟨h1, h2, h3, h4, h5, h6⟩ := h
  dsimp only at h1 h2 h3 h4 h5 h6 ⊢
  have hne : npid ≠ target := by
    intro e
    rw [← e] at hfr
    exact (h6 npid).1 hfr
  have hne2 : target ≠ npid := Ne.symm hne
  have hfr2 : npid ∈ (f target).friends := (h1 npid target).mp hfr
  have erU : ∀ X, X ∈ remove_friend (f npid).friends target ↔
      X ≠ target ∧ X ∈ (f npid).friends := by
    intro X
    unfold remove_friend
    exact List.Nodup.mem_erase_iff (h4 npid).1
  have erT : ∀ X, X ∈ remove_friend (f target).friends npid ↔
      X ≠ npid ∧ X ∈ (f target).friends := by
    intro X
    unfold remove_friend
    exact List.Nodup.mem_erase_iff (h4 target).1
  refine ⟨?_, ?_, ?_, ?_, ?_, ?_⟩
  · -- friends mutual
    intro A B
    have i1AB := h1 A B
    rw [update2_apply, update2_apply]
    rcases eq_or_ne A target with rfl | hAt
    · rw [if_pos rfl]
      rcases eq_or_ne B A with rfl | hBA
      · rw [if_pos rfl]
      · rcases eq_or_ne B npid with rfl | hBn
        · rw [if_neg hBA, if_pos rfl]
          dsimp only
          simp only [erU, erT]
          tauto
        · rw [if_neg hBA, if_neg hBn]
          dsimp only
          simp only [erU, erT]
          tauto
    · rw [if_neg hAt]
      rcases eq_or_ne A npid with rfl | hAn
      · rw [if_pos rfl]
        rcases eq_or_ne B target with rfl | hBt
        · rw [if_pos rfl]
          dsimp only
          simp only [erU, erT]
          tauto
        · rcases eq_or_ne B A with rfl | hBA
          · rw [if_neg hBt, if_pos rfl]
          · rw [if_neg hBt, if_neg hBA]
            dsimp only
            simp only [erU, erT]
            tauto
      · rw [if_neg hAn]
        rcases eq_or_ne B target with rfl | hBt
        · rw [if_pos rfl]
          dsimp only
          simp only [erU, erT]
          tauto
        · rcases eq_or_ne B npid with rfl | hBn
          · rw [if_neg hBt, if_pos rfl]
            dsimp only
            simp only [erU, erT]
            tauto
          · rw [if_neg hBt, if_neg hBn]
            exact i1AB
  · -- sent mirrored
    intro A B
    have i2AB := h2 A B
    rw [update2_apply, update2_apply]
    rcases eq_or_ne A target with rfl | hAt
    · rw [if_pos rfl]
      rcases eq_or_ne B A with rfl | hBA
      · rw [if_pos rfl]
        dsimp only
        exact i2AB
      · rcases eq_or_ne B npid with rfl | hBn
        · rw [if_neg hBA, if_pos rfl]
          dsimp only
          exact i2AB
        · rw [if_neg hBA, if_neg hBn]
          dsimp only
          exact i2AB
    · rw [if_neg hAt]
      rcases eq_or_ne A npid with rfl | hAn
      · rw [if_pos rfl]
        rcases eq_or_ne B target with rfl | hBt
        · rw [if_pos rfl]
          dsimp only
          exact i2AB
        · rcases eq_or_ne B A with rfl | hBA
          · rw [if_neg hBt, if_pos rfl]
            dsimp only
            exact i2AB
          · rw [if_neg hBt, if_neg hBA]
            dsimp only
            exact i2AB
      · rw [if_neg hAn]
        rcases eq_or_ne B target with rfl | hBt
        · rw [if_pos rfl]
          dsimp only
          exact i2AB
        · rcases eq_or_ne B npid with rfl | hBn
          · rw [if_neg hBt, if_pos rfl]
            dsimp only
            exact i2AB
          · rw [if_neg hBt, if_neg hBn]
            exact i2AB
  · -- blocked empty
    intro A
    rw [update2_apply]
    rcases eq_or_ne A target with rfl | hAt
    · rw [if_pos rfl]
      exact h3 A
    · rw [if_neg hAt]
      rcases eq_or_ne A npid with rfl | hAn
      · rw [if_pos rfl]
        exact h3 A
      · rw [if_neg hAn]
        exact h3 A
  · -- nodup
    intro A
    rw [update2_apply]
    rcases eq_or_ne A target with rfl | hAt
    · rw [if_pos rfl]
      dsimp only
      exact ⟨List.Nodup.erase npid (h4 A).1, (h4 A).2.1, (h4 A).2.2⟩
    · rw [if_neg hAt]
      rcases eq_or_ne A npid with rfl | hAn
      · rw [if_pos rfl]
        dsimp only
        exact ⟨List.Nodup.erase target (h4 A).1, (h4 A).2.1, (h4 A).2.2⟩
      · rw [if_neg hAn]
        exact h4 A
  · -- disjoint
    intro A B
    have i5AB := h5 A B
    rw [update2_apply]
    rcases eq_or_ne A target with rfl | hAt
    · rw [if_pos rfl]
      dsimp only
      simp only [erU, erT]
      refine ⟨?_, ?_, i5AB.2.2⟩
      · rintro ⟨hf, hs⟩
        exact i5AB.1 ⟨hf.2, hs⟩
      · rintro ⟨hf, hr⟩
        exact i5AB.2.1 ⟨hf.2, hr⟩
    · rw [if_neg hAt]
      rcases eq_or_ne A npid with rfl | hAn
      · rw [if_pos rfl]
        dsimp only
        simp only [erU, erT]
        refine ⟨?_, ?_, i5AB.2.2⟩
        · rintro ⟨hf, hs⟩
          exact i5AB.1 ⟨hf.2, hs⟩
        · rintro ⟨hf, hr⟩
          exact i5AB.2.1 ⟨hf.2, hr⟩
      · rw [if_neg hAn]
        exact i5AB
  · -- no self entries
    intro A
    have i6A := h6 A
    rw [update2_apply]
    rcases eq_or_ne A target with rfl | hAt
    · rw [if_pos rfl]
      dsimp only
      simp only [erU, erT]
      refine ⟨?_, i6A.2.1, i6A.2.2⟩
      rintro ⟨hx, hf⟩
      exact i6A.1 hf
    · rw [if_neg hAt]
      rcases eq_or_ne A npid with rfl | hAn
      · rw [if_pos rfl]
        dsimp only
        simp only [erU, erT]
        refine ⟨?_, i6A.2.1, i6A.2.2⟩
        rintro ⟨hx, hf⟩
        exact i6A.1 hf
      · rw [if_neg hAn]
        exact i6A

/-- FriendInv is preserved by recording a fresh friend request on both
sides. -/
theorem friendInv_request (f : String → FriendFile) (ibx ibx2 : String → List FEvent)
    (npid target : String)
    (h : FriendInv (FriendState.mk f ibx))
    (hne : npid ≠ target)
    (hnotfriends : target ∉ (f npid).friends)
    (hnotsent : target ∉ (f npid).sent)
    (hnotrecv : target ∉ (f npid).received)
    (hnotsent2 : npid ∉ (f target).sent) :
    FriendInv (FriendState.mk
      (Function.update (Function.update f npid
        (FriendFile.mk (f npid).friends ((f npid).sent ++ [target])
          (f npid).received (f npid).blocked))
        target
        (FriendFile.mk (f target).friends (f target).sent
          ((f target).received ++ [npid]) (f target).blocked))
      ibx2) := by
  unfold FriendInv at h ⊢
  obtain ⟨h1, h2, h3, h4, h5, h6⟩ := h
  dsimp only at h1 h2 h3 h4 h5 h6 ⊢
  have hne2 : target ≠ npid := Ne.symm hne
  have hnotrecv2 : npid ∉ (f target).received := fun hr =>
    hnotsent ((h2 npid target).mpr hr)
  have hnotfr2 : npid ∉ (f target).friends := fun hf =>
    hnotfriends ((h1 npid target).mpr hf)
  refine ⟨?_, ?_, ?_, ?_, ?_, ?_⟩
  · -- friends mutual: unchanged
    intro A B
    have i1AB := h1 A B
    rw [update2_apply, update2_apply]
    rcases eq_or_ne A target with rfl | hAt
    · rw [if_pos rfl]
      rcases eq_or_ne B A with rfl | hBA
      · rw [if_pos rfl]
      · rcases eq_or_ne B npid with rfl | hBn
        · rw [if_neg hBA, if_pos rfl]
          dsimp only
          exact i1AB
        · rw [if_neg hBA, if_neg hBn]
          dsimp only
          exact i1AB
    · rw [if_neg hAt]
      rcases eq_or_ne A npid with rfl | hAn
      · rw [if_pos rfl]
        rcases eq_or_ne B target with rfl | hBt
        · rw [if_pos rfl]
          dsimp only
          exact i1AB
        · rcases eq_or_ne B A with rfl | hBA
          · rw [if_neg hBt, if_pos rfl]
          · rw [if_neg hBt, if_neg hBA]
            dsimp only
            exact i1AB
      · rw [if_neg hAn]
        rcases eq_or_ne B target with rfl | hBt
        · rw [if_pos rfl]
          dsimp only
          exact i1AB
        · rcases eq_or_ne B npid with rfl | hBn
          · rw [if_neg hBt, if_pos rfl]
            dsimp only
            exact i1AB
          · rw [if_neg hBt, if_neg hBn]
            exact i1AB
  · -- sent mirrored
    intro A B
    have i2AB := h2 A B
    have i6A := h6 A
    have i6B := h6 B
    rw [update2_apply, update2_apply]
    rcases eq_or_ne A target with rfl | hAt
    · rw [if_pos rfl]
      rcases eq_or_ne B A with rfl | hBA
      · rw [if_pos rfl]
        dsimp only
        simp only [List.mem_append, List.mem_singleton]
        tauto
      · rcases eq_or_ne B npid with rfl | hBn
        · rw [if_neg hBA, if_pos rfl]
          dsimp only
          tauto
        · rw [if_neg hBA, if_neg hBn]
          dsimp only
          exact i2AB
    · rw [if_neg hAt]
      rcases eq_or_ne A npid with rfl | hAn
      · rw [if_pos rfl]
        rcases eq_or_ne B target with rfl | hBt
        · rw [if_pos rfl]
          dsimp only
          simp only [List.mem_append, List.mem_singleton]
          tauto
        · rcases eq_or_ne B A with rfl | hBA
          · rw [if_neg hBt, if_pos rfl]
            dsimp only
            simp only [List.mem_append, List.mem_singleton]
            tauto
          · rw [if_neg hBt, if_neg hBA]
            dsimp only
            simp only [List.mem_append, List.mem_singleton]
            tauto
      · rw [if_neg hAn]
        rcases eq_or_ne B target with rfl | hBt
        · rw [if_pos rfl]
          dsimp only
          simp only [List.mem_append, List.mem_singleton]
          tauto
        · rcases eq_or_ne B npid with rfl | hBn
          · rw [if_neg hBt, if_pos rfl]
            dsimp only
            exact i2AB
          · rw [if_neg hBt, if_neg hBn]
            exact i2AB
  · -- blocked empty
    intro A
    rw [update2_apply]
    rcases eq_or_ne A target with rfl | hAt
    · rw [if_pos rfl]
      exact h3 A
    · rw [if_neg hAt]
      rcases eq_or_ne A npid with rfl | hAn
      · rw [if_pos rfl]
        exact h3 A
      · rw [if_neg hAn]
        exact h3 A
  · -- nodup
    intro A
    rw [update2_apply]
    rcases eq_or_ne A target with rfl | hAt
    · rw [if_pos rfl]
      dsimp only
      refine ⟨(h4 A).1, (h4 A).2.1, ?_⟩
      simp [List.nodup_append, (h4 A).2.2, hnotrecv2]
    · rw [if_neg hAt]
      rcases eq_or_ne A npid with rfl | hAn
      · rw [if_pos rfl]
        dsimp only
        refine ⟨(h4 A).1, ?_, (h4 A).2.2⟩
        simp [List.nodup_append, (h4 A).2.1, hnotsent]
      · rw [if_neg hAn]
        exact h4 A
  · -- disjoint
    intro A B
    have i5AB := h5 A B
    have dFB : B = target → B ∉ (f npid).friends := fun e => by
      rw [e]
      exact hnotfriends
    have dRB : B = target → B ∉ (f npid).received := fun e => by
      rw [e]
      exact hnotrecv
    have dF2B : B = npid → B ∉ (f target).friends := fun e => by
      rw [e]
      exact hnotfr2
    have dS2B : B = npid → B ∉ (f target).sent := fun e => by
      rw [e]
      exact hnotsent2
    rw [update2_apply]
    rcases eq_or_ne A target with rfl | hAt
    · rw [if_pos rfl]
      dsimp only
      simp only [List.mem_append, List.mem_singleton]
      refine ⟨i5AB.1, ?_, ?_⟩
      · rintro ⟨hf, hr | he⟩
        · exact i5AB.2.1 ⟨hf, hr⟩
        · exact dF2B he hf
      · rintro ⟨hs, hr | he⟩
        · exact i5AB.2.2 ⟨hs, hr⟩
        · exact dS2B he hs
    · rw [if_neg hAt]
      rcases eq_or_ne A npid with rfl | hAn
      · rw [if_pos rfl]
        dsimp only
        simp only [List.mem_append, List.mem_singleton]
        refine ⟨?_, i5AB.2.1, ?_⟩
        · rintro ⟨hf, hs | he⟩
          · exact i5AB.1 ⟨hf, hs⟩
          · exact dFB he hf
        · rintro ⟨hs | he, hr⟩
          · exact i5AB.2.2 ⟨hs, hr⟩
          · exact dRB he hr
      · rw [if_neg hAn]
        exact i5AB
  · -- no self entries
    intro A
    have i6A := h6 A
    rw [update2_apply]
    rcases eq_or_ne A target with rfl | hAt
    · rw [if_pos rfl]
      dsimp only
      simp only [List.mem_append, List.mem_singleton]
      refine ⟨i6A.1, i6A.2.1, ?_⟩
      rintro (hr | he)
      · exact i6A.2.2 hr
      · exact hne2 he
    · rw [if_neg hAt]
      rcases eq_or_ne A npid with rfl | hAn
      · rw [if_pos rfl]
        dsimp only
        simp only [List.mem_append, List.mem_singleton]
        refine ⟨i6A.1, ?_, i6A.2.2⟩
        rintro (hs | he)
        · exact i6A.2.1 hs
        · exact hne he
      · rw [if_neg hAn]
        exact i6A

/-- handle_friend_add preserves the friend invariant. -/
theorem friendInv_add (users : List String) (now : Int) (npid target_npid : String)
    (s : FriendState) (h : FriendInv s) :
    FriendInv (handle_friend_add users now npid target_npid s).2.1 := by
  obtain ⟨fl, ib⟩ := s
  have hInv := h
  unfold FriendInv at h
  dsimp only at h
  obtain ⟨h1, h2, h3, h4, h5, h6⟩ := h
  unfold handle_friend_add
  dsimp only
  by_cases e1 : target_npid = ""
  · rw [if_pos e1]
    exact hInv
  rw [if_neg e1]
  by_cases e2 : npid = target_npid
  · rw [if_pos e2]
    exact hInv
  rw [if_neg e2]
  by_cases e3 : users.contains target_npid = true
  case neg =>
    rw [if_pos e3]
    exact hInv
  rw [if_neg (not_not_intro e3)]
  by_cases e4 : has_friend (fl npid).friends target_npid = true
  · rw [if_pos e4]
    exact hInv
  rw [if_neg e4]
  by_cases e5 : has_friend (fl npid).sent target_npid = true
  · rw [if_pos e5]
    exact hInv
  rw [if_neg e5]
  have e6 : ¬ has_friend (fl target_npid).blocked npid = true := by
    rw [has_friend, h3 target_npid]
    simp
  rw [if_neg e6]
  have hiff : has_friend (fl npid).received target_npid = true ↔
      has_friend (fl target_npid).sent npid = true := by
    rw [has_friend_iff, has_friend_iff]
    exact (h2 target_npid npid).symm
  by_cases e8 : has_friend (fl npid).received target_npid = true
  · have e9 : has_friend (fl target_npid).sent npid = true := hiff.mp e8
    rw [if_pos (by simp [e8] : (has_friend (fl npid).received target_npid ||
        has_friend (fl target_npid).sent npid) = true), if_pos e8, if_pos e9]
    exact friendInv_promote fl ib _ npid target_npid hInv ((has_friend_iff _ _).mp e8)
  · have e9 : ¬ has_friend (fl target_npid).sent npid = true := fun hx => e8 (hiff.mpr hx)
    rw [if_neg (by simp [e8, e9] : ¬ (has_friend (fl npid).received target_npid ||
        has_friend (fl target_npid).sent npid) = true)]
    have hnotfriends : target_npid ∉ (fl npid).friends := fun hx =>
      e4 ((has_friend_iff _ _).mpr hx)
    have hnotsent : target_npid ∉ (fl npid).sent := fun hx =>
      e5 ((has_friend_iff _ _).mpr hx)
    have hnotrecv : target_npid ∉ (fl npid).received := fun hx =>
      e8 ((has_friend_iff _ _).mpr hx)
    have hnotsent2 : npid ∉ (fl target_npid).sent := fun hx =>
      e9 ((has_friend_iff _ _).mpr hx)
    exact friendInv_request fl ib _ npid target_npid hInv e2 hnotfriends hnotsent
      hnotrecv hnotsent2

/-- handle_friend_accept preserves the friend invariant. -/
theorem friendInv_accept (users : List String) (npid target_npid : String)
    (s : FriendState) (h : FriendInv s) :
    FriendInv (handle_friend_accept users npid target_npid s).2.1 := by
  obtain ⟨fl, ib⟩ := s
  have hInv := h
  unfold handle_friend_accept
  dsimp only
  by_cases e1 : target_npid = ""
  · rw [if_pos e1]
    exact hInv
  rw [if_neg e1]
  by_cases e2 : users.contains target_npid = true
  case neg =>
    rw [if_pos e2]
    exact hInv
  rw [if_neg (not_not_intro e2)]
  by_cases e3 : has_friend (fl npid).received target_npid = true
  case neg =>
    rw [if_pos e3]
    exact hInv
  rw [if_neg (not_not_intro e3)]
  exact friendInv_promote fl ib _ npid target_npid hInv ((has_friend_iff _ _).mp e3)

/-- handle_friend_remove preserves the friend invariant. -/
theorem friendInv_remove (users : List String) (npid target_npid : String)
    (s : FriendState) (h : FriendInv s) :
    FriendInv (handle_friend_remove users npid target_npid s).2.1 := by
  obtain ⟨fl, ib⟩ := s
  have hInv := h
  unfold handle_friend_remove
  dsimp only
  by_cases e1 : target_npid = ""
  · rw [if_pos e1]
    exact hInv
  rw [if_neg e1]
  by_cases e2 : users.contains target_npid = true
  case neg =>
    rw [if_pos e2]
    exact hInv
  rw [if_neg (not_not_intro e2)]
  by_cases e3 : has_friend (fl npid).friends target_npid = true
  case neg =>
    rw [if_pos e3]
    exact hInv
  rw [if_neg (not_not_intro e3)]
  exact friendInv_unfriend fl ib _ npid target_npid hInv ((has_friend_iff _ _).mp e3)

/-- Every friend operation preserves the friend invariant. -/
theorem friendInv_applyOp (users : List String) (s : FriendState) (op : FriendOp)
    (h : FriendInv s) : FriendInv (applyFriendOp users s op) := by
  cases op with
  | add now npid target_npid => exact friendInv_add users now npid target_npid s h
  | accept npid target_npid => exact friendInv_accept users npid target_npid s h
  | remove npid target_npid => exact friendInv_remove users npid target_npid s h

/-- Every sequence of friend operations preserves the friend invariant. -/
theorem friendInv_run (users : List String) (ops : List FriendOp) :
    ∀ s : FriendState, FriendInv s → FriendInv (runFriendOps users s ops) := by
  induction ops with
  | nil => intro s h; exact h
  | cons op rest ih =>
    intro s h
    exact ih (applyFriendOp users s op) (friendInv_applyOp users s op h)

/-- Claim C1: starting from a state in which no friend file mentions any
other user, after any sequence of friend add, accept and remove
operations, B is in friends(A) exactly when A is in friends(B). -/
theorem bilateral_friendship_invariant (users : List String) (s0 : FriendState)
    (ops : List FriendOp)
    (h0 : ∀ A B, ¬ friendFileMentions (s0.files A) B) :
    ∀ A B, B ∈ ((runFriendOps users s0 ops).files A).friends ↔
           A ∈ ((runFriendOps users s0 ops).files B).friends := by
  have hmem : ∀ A B, B ∉ (s0.files A).friends ∧ B ∉ (s0.files A).sent ∧
      B ∉ (s0.files A).received ∧ B ∉ (s0.files A).blocked := by
    intro A B
    have hx := h0 A B
    unfold friendFileMentions at hx
    push_neg at hx
    exact hx
  have hInv0 : FriendInv s0 := by
    unfold FriendInv
    refine ⟨?_, ?_, ?_, ?_, ?_, ?_⟩
    · intro A B
      exact iff_of_false (hmem A B).1 (hmem B A).1
    · intro A B
      exact iff_of_false (hmem A B).2.1 (hmem B A).2.2.1
    · intro A
      exact List.eq_nil_iff_forall_not_mem.mpr (fun B => (hmem A B).2.2.2)
    · intro A
      rw [List.eq_nil_iff_forall_not_mem.mpr (fun B => (hmem A B).1),
        List.eq_nil_iff_forall_not_mem.mpr (fun B => (hmem A B).2.1),
        List.eq_nil_iff_forall_not_mem.mpr (fun B => (hmem A B).2.2.1)]
      exact ⟨List.nodup_nil, List.nodup_nil, List.nodup_nil⟩
    · intro A B
      exact ⟨fun hx => (hmem A B).1 hx.1, fun hx => (hmem A B).1 hx.1,
        fun hx => (hmem A B).2.1 hx.1⟩
    · intro A
      exact ⟨(hmem A A).1, (hmem A A).2.1, (hmem A A).2.2.1⟩
  have hInv := friendInv_run users ops s0 hInv0
  unfold FriendInv at hInv
  exact hInv.1

/-- Witness for bilateral_friendship_invariant: from the empty state, A
adds B and B accepts; the resulting friendship is mutual. -/
theorem bilateral_friendship_invariant_witness :
    (∀ A B, ¬ friendFileMentions
      ((FriendState.mk (fun _ => emptyFriendFile) (fun _ => [])).files A) B)
    ∧ (∀ A B, B ∈ ((runFriendOps ["A", "B"]
          (FriendState.mk (fun _ => emptyFriendFile) (fun _ => []))
          [FriendOp.add 5 "A" "B", FriendOp.accept "B" "A"]).files A).friends ↔
        A ∈ ((runFriendOps ["A", "B"]
          (FriendState.mk (fun _ => emptyFriendFile) (fun _ => []))
          [FriendOp.add 5 "A" "B", FriendOp.accept "B" "A"]).files B).friends) :=
  ⟨fun A B => by simp [friendFileMentions, emptyFriendFile],
   bilateral_friendship_invariant ["A", "B"]
     (FriendState.mk (fun _ => emptyFriendFile) (fun _ => []))
     [FriendOp.add 5 "A" "B", FriendOp.accept "B" "A"]
     (fun A B => by simp [friendFileMentions, emptyFriendFile])⟩

/-- Claim C8 at its failing input: deleting account Alice (stored token T,
correct password) does erase the persisted token binding and the user row,
but the in-memory cache eviction keys on the dangling post-erasure read of
user[token]; whenever that indeterminate value differs from T (here the
arbitrary residue garbage), token_cache still contains T afterwards. -/
theorem delete_account_cache_eviction_bug :
    (handle_delete_account (fun _ _ => "H") "Alice" "pw" "garbage"
      (AccountDB.mk [("Alice", UserRec.mk "T" "H" "S" 0)] [("T", "Alice")])
      [("T", "Alice")]).1 = "OK:UserDeleted" ∧
    lookupKey (handle_delete_account (fun _ _ => "H") "Alice" "pw" "garbage"
      (AccountDB.mk [("Alice", UserRec.mk "T" "H" "S" 0)] [("T", "Alice")])
      [("T", "Alice")]).2.1.users "Alice" = none ∧
    lookupKey (handle_delete_account (fun _ _ => "H") "Alice" "pw" "garbage"
      (AccountDB.mk [("Alice", UserRec.mk "T" "H" "S" 0)] [("T", "Alice")])
      [("T", "Alice")]).2.1.tokens "T" = none ∧
    lookupKey (handle_delete_account (fun _ _ => "H") "Alice" "pw" "garbage"
      (AccountDB.mk [("Alice", UserRec.mk "T" "H" "S" 0)] [("T", "Alice")])
      [("T", "Alice")]).2.2 "T" = some "Alice" := by
  decide

/-- Claim C9 at its failing input: change_npid accepts the two-character
handle ab (it only rejects an empty trimmed new_npid), re-keying the users
table to a key shorter than 3 characters, while create_account enforces
the 3 to 16 character bound. -/
theorem change_npid_length_bug :
    (handle_change_npid "Alice" "ab"
      (AccountDB.mk [("Alice", UserRec.mk "T" "H" "S" 0)] [("T", "Alice")])
      [("T", "Alice")]).1 = "OK:NPIDChanged" ∧
    lookupKey (handle_change_npid "Alice" "ab"
      (AccountDB.mk [("Alice", UserRec.mk "T" "H" "S" 0)] [("T", "Alice")])
      [("T", "Alice")]).2.1.users "ab" = some (UserRec.mk "T" "H" "S" 0) ∧
    (trim_npid "ab").length < 3 ∧
    (handle_create_account (fun _ _ => "H") "S" "T" "ab" "pw"
      (AccountDB.mk [] []) []).1 = "ERR:InvalidNPID" := by
  decide

/-- Every index below 64 is recovered by looking its character up in the
base64 table. -/
theorem b64_find_char_fin : ∀ n : Fin 64, b64_find (b64_char n.1) = some n.1 := by decide

/-- Nat form of the table lookup inversion. -/
theorem b64_find_char (n : Nat) (h : n < 64) : b64_find (b64_char n) = some n :=
  b64_find_char_fin ⟨n, h⟩

/-- The padding character = is absent from the base64 table. -/
theorem b64_find_eq : b64_find (Char.ofNat 61) = none := by decide

/-- One decode step that emits a byte (valb crossed zero). -/
theorem decode_go_step_emit (ch : Char) (rest : List Char) (val idx : Nat) (valb : Int)
    (hfind : b64_find ch = some idx) (hvb : 0 ≤ valb + 6) :
    base64_decode_go (ch :: rest) val valb =
      ((val * 64 + idx) / 2 ^ (valb + 6).toNat % 256) ::
        base64_decode_go rest (val * 64 + idx) (valb + 6 - 8) := by
  simp only [base64_decode_go]
  rw [hfind]
  dsimp only
  rw [if_pos hvb]

/-- One decode step that only accumulates bits (valb still negative). -/
theorem decode_go_step_skip (ch : Char) (rest : List Char) (val idx : Nat) (valb : Int)
    (hfind : b64_find ch = some idx) (hvb : ¬ 0 ≤ valb + 6) :
    base64_decode_go (ch :: rest) val valb =
      base64_decode_go rest (val * 64 + idx) (valb + 6) := by
  simp only [base64_decode_go]
  rw [hfind]
  dsimp only
  rw [if_neg hvb]

/-- A character outside the table stops the decode loop. -/
theorem decode_go_step_stop (ch : Char) (rest : List Char) (val : Nat) (valb : Int)
    (hfind : b64_find ch = none) :
    base64_decode_go (ch :: rest) val valb = [] := by
  simp only [base64_decode_go]
  rw [hfind]

/-- Decoding one full 4-character group emits three bytes and recurses. -/
theorem decode_go_chunk (i1 i2 i3 i4 : Nat) (h1 : i1 < 64) (h2 : i2 < 64)
    (h3 : i3 < 64) (h4 : i4 < 64) (t : List Char) (V : Nat) :
    base64_decode_go (b64_char i1 :: b64_char i2 :: b64_char i3 :: b64_char i4 :: t)
      V (-8) =
      ((V * 64 + i1) * 64 + i2) / 16 % 256 ::
      (((V * 64 + i1) * 64 + i2) * 64 + i3) / 4 % 256 ::
      ((((V * 64 + i1) * 64 + i2) * 64 + i3) * 64 + i4) % 256 ::
      base64_decode_go t ((((V * 64 + i1) * 64 + i2) * 64 + i3) * 64 + i4) (-8) := by
  rw [decode_go_step_skip (b64_char i1) (b64_char i2 :: b64_char i3 :: b64_char i4 :: t)
    V i1 (-8) (b64_find_char i1 h1) (by norm_num)]
  rw [decode_go_step_emit (b64_char i2) (b64_char i3 :: b64_char i4 :: t)
    (V * 64 + i1) i2 (-8 + 6) (b64_find_char i2 h2) (by norm_num)]
  rw [decode_go_step_emit (b64_char i3) (b64_char i4 :: t)
    ((V * 64 + i1) * 64 + i2) i3 (-8 + 6 + 6 - 8) (b64_find_char i3 h3) (by norm_num)]
  rw [decode_go_step_emit (b64_char i4) t
    (((V * 64 + i1) * 64 + i2) * 64 + i3) i4 (-8 + 6 + 6 - 8 + 6 - 8)
    (b64_find_char i4 h4) (by norm_num)]
  norm_num [show Int.toNat 4 = 4 from rfl, show Int.toNat 2 = 2 from rfl, show Int.toNat 0 = 0 from rfl]

/-- Decoding the two-character-plus-double-padding tail emits one byte. -/
theorem decode_go_tail1 (i1 i2 : Nat) (h1 : i1 < 64) (h2 : i2 < 64) (V : Nat) :
    base64_decode_go
      (b64_char i1 :: b64_char i2 :: Char.ofNat 61 :: Char.ofNat 61 :: []) V (-8) =
      ((V * 64 + i1) * 64 + i2) / 16 % 256 :: [] := by
  rw [decode_go_step_skip (b64_char i1) (b64_char i2 :: Char.ofNat 61 :: Char.ofNat 61 :: [])
    V i1 (-8) (b64_find_char i1 h1) (by norm_num)]
  rw [decode_go_step_emit (b64_char i2) (Char.ofNat 61 :: Char.ofNat 61 :: [])
    (V * 64 + i1) i2 (-8 + 6) (b64_find_char i2 h2) (by norm_num)]
  rw [decode_go_step_stop (Char.ofNat 61) (Char.ofNat 61 :: []) ((V * 64 + i1) * 64 + i2)
    (-8 + 6 + 6 - 8) b64_find_eq]
  norm_num [show Int.toNat 4 = 4 from rfl, show Int.toNat 2 = 2 from rfl, show Int.toNat 0 = 0 from rfl]

/-- Decoding the three-character-plus-padding tail emits two bytes. -/
theorem decode_go_tail2 (i1 i2 i3 : Nat) (h1 : i1 < 64) (h2 : i2 < 64) (h3 : i3 < 64)
    (V : Nat) :
    base64_decode_go
      (b64_char i1 :: b64_char i2 :: b64_char i3 :: Char.ofNat 61 :: []) V (-8) =
      ((V * 64 + i1) * 64 + i2) / 16 % 256 ::
      (((V * 64 + i1) * 64 + i2) * 64 + i3) / 4 % 256 :: [] := by
  rw [decode_go_step_skip (b64_char i1) (b64_char i2 :: b64_char i3 :: Char.ofNat 61 :: [])
    V i1 (-8) (b64_find_char i1 h1) (by norm_num)]
  rw [decode_go_step_emit (b64_char i2) (b64_char i3 :: Char.ofNat 61 :: [])
    (V * 64 + i1) i2 (-8 + 6) (b64_find_char i2 h2) (by norm_num)]
  rw [decode_go_step_emit (b64_char i3) (Char.ofNat 61 :: [])
    ((V * 64 + i1) * 64 + i2) i3 (-8 + 6 + 6 - 8) (b64_find_char i3 h3) (by norm_num)]
  rw [decode_go_step_stop (Char.ofNat 61) []
    ((((V * 64 + i1) * 64 + i2)) * 64 + i3) (-8 + 6 + 6 - 8 + 6 - 8) b64_find_eq]
  norm_num [show Int.toNat 4 = 4 from rfl, show Int.toNat 2 = 2 from rfl, show Int.toNat 0 = 0 from rfl]

/-- The decode loop inverts the encode loop for every accumulator value. -/
theorem decode_encode_go (s : List Nat) (h : ∀ b ∈ s, b < 256) :
    ∀ V : Nat, base64_decode_go (base64_encode s) V (-8) = s := by
  induction s using base64_encode.induct with
  | case1 =>
    intro V
    rfl
  | case2 a =>
    intro V
    have ha : a < 256 := h a (by simp)
    show base64_decode_go (b64_char (a * 65536 / 262144 % 64) ::
      b64_char (a * 65536 / 4096 % 64) :: Char.ofNat 61 :: Char.ofNat 61 :: []) V (-8) = [a]
    rw [decode_go_tail1 (a * 65536 / 262144 % 64) (a * 65536 / 4096 % 64)
      (by omega) (by omega) V]
    simp only [List.cons.injEq, and_true]
    omega
  | case3 a b =>
    intro V
    have ha : a < 256 := h a (by simp)
    have hb : b < 256 := h b (by simp)
    show base64_decode_go (b64_char ((a * 65536 + b * 256) / 262144 % 64) ::
      b64_char ((a * 65536 + b * 256) / 4096 % 64) ::
      b64_char ((a * 65536 + b * 256) / 64 % 64) :: Char.ofNat 61 :: []) V (-8) = [a, b]
    rw [decode_go_tail2 ((a * 65536 + b * 256) / 262144 % 64)
      ((a * 65536 + b * 256) / 4096 % 64) ((a * 65536 + b * 256) / 64 % 64)
      (by omega) (by omega) (by omega) V]
    simp only [List.cons.injEq, and_true]
    constructor
    · omega
    · omega
  | case4 a b c rest ih =>
    intro V
    have ha : a < 256 := h a (by simp)
    have hb : b < 256 := h b (by simp)
    have hc : c < 256 := h c (by simp)
    have hrest : ∀ x ∈ rest, x < 256 := fun x hx => h x (by simp [hx])
    show base64_decode_go (b64_char ((a * 65536 + b * 256 + c) / 262144 % 64) ::
      b64_char ((a * 65536 + b * 256 + c) / 4096 % 64) ::
      b64_char ((a * 65536 + b * 256 + c) / 64 % 64) ::
      b64_char ((a * 65536 + b * 256 + c) % 64) :: base64_encode rest) V (-8) =
      a :: b :: c :: rest
    rw [decode_go_chunk ((a * 65536 + b * 256 + c) / 262144 % 64)
      ((a * 65536 + b * 256 + c) / 4096 % 64) ((a * 65536 + b * 256 + c) / 64 % 64)
      ((a * 65536 + b * 256 + c) % 64)
      (by omega) (by omega) (by omega) (by omega) (base64_encode rest) V]
    rw [ih hrest]
    simp only [List.cons.injEq, and_true]
    refine ⟨?_, ?_, ?_⟩
    · omega
    · omega
    · omega

/-- Claim C10: base64 round-trip.  For every byte list s (bytes below 256,
including arbitrary binary bytes), base64_decode applied to
base64_encode s returns s. -/
theorem base64_roundtrip (s : List Nat) (h : ∀ b ∈ s, b < 256) :
    base64_decode (base64_encode s) = s :=
  decode_encode_go s h 0

/-- Witness for the base64 round-trip at the concrete byte list
72, 255, 0. -/
theorem base64_roundtrip_witness :
    (∀ b ∈ [72, 255, 0], b < 256) ∧
    base64_decode (base64_encode [72, 255, 0]) = [72, 255, 0] :=
  ⟨by decide, base64_roundtrip [72, 255, 0] (by decide)⟩

/-- A participant-not-found error can never read as the too-few-participants
error: the two literals differ at their fifth character. -/
theorem participant_not_found_ne (p : String) :
    "ERR:ParticipantNotFound:" ++ p ≠ "ERR:NotEnoughParticipants" := by
  intro he
  have h4 : (("ERR:ParticipantNotFound:" ++ p).data)[4]? = some 'P' := by
    rw [String.data_append]
    rw [List.getElem?_append_left (by decide)]
    decide
  rw [he] at h4
  exact absurd h4 (by decide)

/-- Counterexample to claim C5 as stated: user A creates a conversation with
participants body B, B.  The request succeeds and the stored
metadata.participants is A, B, B, which contains a duplicate: the handler
drops only empty entries and entries equal to the requester, it never
de-duplicates the remaining participants. -/
theorem messages_create_dedup_counterexample :
    (handle_messages_create (fun _ => 0) 0 0 "A" ["B", "B"] "m"
      (MessagesState.mk ["A", "B"] (fun _ => none) (fun _ => []) (fun _ => []))).1 =
      "OK:group_0" ∧
    ((handle_messages_create (fun _ => 0) 0 0 "A" ["B", "B"] "m"
      (MessagesState.mk ["A", "B"] (fun _ => none) (fun _ => []) (fun _ => []))).2.metas
        "group_0").map ConvMeta.participants = some ["A", "B", "B"] ∧
    ¬ (["A", "B", "B"] : List String).Nodup := by
  refine ⟨by decide, by decide, by decide⟩

/-- Claim C5 (amended): for every messages/create request with a valid
message, the requester is implicitly added at the head of the participant
list and body entries that are empty after trimming or equal to the
requester are dropped, but the remaining entries are not de-duplicated:
the request fails with ERR:NotEnoughParticipants exactly when fewer than
two entries remain, and any stored metadata.participants equals the
requester followed by the filtered body verbatim, duplicates included. -/
theorem messages_create_participants_spec
    (hash : String → Nat) (now now_ms : Int) (npid message : String)
    (body : List String) (st : MessagesState)
    (hmsg : ¬ (message = "" ∨ 2000 < message.length)) :
    ((handle_messages_create hash now now_ms npid body message st).1 =
        "ERR:NotEnoughParticipants" ↔
      (npid :: (body.map trim_npid).filter (fun p => p ≠ "" ∧ p ≠ npid)).length < 2) ∧
    ∀ cid, (handle_messages_create hash now now_ms npid body message st).2.metas cid ≠
        st.metas cid →
      ((handle_messages_create hash now now_ms npid body message st).2.metas cid).map
          ConvMeta.participants =
        some (npid :: (body.map trim_npid).filter (fun p => p ≠ "" ∧ p ≠ npid)) := by
  have hP : ∀ q : String, "ERR:ParticipantNotFound:" ++ q ≠ "ERR:NotEnoughParticipants" :=
    participant_not_found_ne
  rw [handle_messages_create, if_neg hmsg]
  by_cases hlen :
      (npid :: (body.map trim_npid).filter (fun p => p ≠ "" ∧ p ≠ npid)).length < 2
  · rw [if_pos hlen]
    exact ⟨by simpa using hlen, fun cid hne => absurd rfl hne⟩
  · rw [if_neg hlen]
    cases hf : (npid :: (body.map trim_npid).filter
        (fun p => p ≠ "" ∧ p ≠ npid)).find? (fun p => ¬ st.users.contains p) with
    | some p =>
      dsimp only
      refine ⟨?_, fun cid hne => absurd rfl hne⟩
      constructor
      · intro he; exact absurd he (hP p)
      · intro h2; exact absurd h2 hlen
    | none =>
      dsimp only
      by_cases hex : ((st.metas (generate_conversation_id hash now_ms
          (npid :: (body.map trim_npid).filter (fun p => p ≠ "" ∧ p ≠ npid)))).isSome)
      · rw [if_pos hex]
        refine ⟨?_, fun cid hne => absurd rfl hne⟩
        constructor
        · intro he
          have hx : ("ERR:ConversationAlreadyExists" : String) =
            "ERR:NotEnoughParticipants" := he
          exact absurd hx (by decide)
        · intro h2; exact absurd h2 hlen
      · rw [if_neg hex]
        constructor
        · constructor
          · intro he
            exact absurd he (string_ne_of_head _ _ (by
              rw [string_head_append "OK:" _ 'O' (by decide)]
              decide))
          · intro h2; exact absurd h2 hlen
        · intro cid hne
          by_cases hc : cid = generate_conversation_id hash now_ms
              (npid :: (body.map trim_npid).filter (fun p => p ≠ "" ∧ p ≠ npid))
          · subst hc
            simp [Function.update]
          · exact absurd (Function.update_noteq hc _ _) hne

/-- Witness for the amended messages/create participant specification: user
A creates a conversation with B and the message m. -/
theorem messages_create_participants_spec_witness :
    (¬ (("m" : String) = "" ∨ 2000 < ("m" : String).length)) ∧
    ((handle_messages_create (fun _ => 0) 0 0 "A" ["B"] "m"
        (MessagesState.mk ["A", "B"] (fun _ => none) (fun _ => []) (fun _ => []))).1 =
        "ERR:NotEnoughParticipants" ↔
      ("A" :: ((["B"].map trim_npid).filter
        (fun p => p ≠ "" ∧ p ≠ "A"))).length < 2) ∧
    ∀ cid, (handle_messages_create (fun _ => 0) 0 0 "A" ["B"] "m"
        (MessagesState.mk ["A", "B"] (fun _ => none) (fun _ => [])
          (fun _ => []))).2.metas cid ≠
        (MessagesState.mk ["A", "B"] (fun _ => none) (fun _ => [])
          (fun _ => []) : MessagesState).metas cid →
      ((handle_messages_create (fun _ => 0) 0 0 "A" ["B"] "m"
          (MessagesState.mk ["A", "B"] (fun _ => none) (fun _ => [])
            (fun _ => []))).2.metas cid).map ConvMeta.participants =
        some ("A" :: ((["B"].map trim_npid).filter (fun p => p ≠ "" ∧ p ≠ "A"))) :=
  ⟨by decide, messages_create_participants_spec (fun _ => 0) 0 0 "A" "m" ["B"]
    (MessagesState.mk ["A", "B"] (fun _ => none) (fun _ => []) (fun _ => [])) (by decide)⟩
